import Mathlib

/-!
Verification development for the GPAC FLAC reframer filter
(src/src/filters/reframe_flac.c).

The C source is shallowly embedded: bytes are natural numbers below 256
(normalized with an explicit mod), machine integers are Nat with explicit
mod two-to-the-width where wraparound is reachable, and the per-invocation
process loop is a fuel-indexed recursive function (the fuel supplied by the
wrappers is provably sufficient, since every loop iteration consumes at
least two buffered bytes).

The bit reader (the GPAC GF_BitStream helpers gf_bs_read_int and friends)
is not part of the given source tree; it is modelled from the spec, which
describes it as a transient big-endian bit-level reader over a byte window
with overflow detection.  The CRC tables and all parsing logic below are
transcribed from reframe_flac.c itself.
-/

namespace FlacDmx

/-- Byte access into a buffer; out-of-range reads as 0, values are
normalized to unsigned 8-bit range as the C code reads u8 quantities. -/
def byteAt (d : List Nat) (i : Nat) : Nat := d.getD i 0 % 256

/-- Single bit of the byte stream, big-endian within each byte. -/
def bitAt (d : List Nat) (j : Nat) : Nat := byteAt d (j / 8) >>> (7 - j % 8) &&& 1

/-- Value of the n bits starting at bit position p, big-endian. -/
def bitsVal (d : List Nat) (p n : Nat) : Nat :=
  (List.range n).foldl (fun a i => 2 * a + bitAt d (p + i)) 0

/-- Modelled from the spec: transient bit cursor state of the GPAC
bitstream reader, a bit position plus an overflow flag. -/
structure Rd where
  pos : Nat
  ov : Bool
deriving Repr, DecidableEq

/-- Modelled from the spec: gf_bs_read_int and the fixed-width read
helpers; reads n bits big-endian, bits beyond the window read as zero and
set the overflow flag. -/
def readBits (d : List Nat) (s : Rd) (n : Nat) : Nat × Rd :=
  (bitsVal d s.pos n, ⟨s.pos + n, s.ov || decide (8 * d.length < s.pos + n)⟩)

/-- Modelled from the spec: gf_bs_available, remaining whole bytes of the
window. -/
def bsAvailable (d : List Nat) (s : Rd) : Nat := d.length - s.pos / 8

/-- Modelled from the spec: gf_bs_skip_bytes. -/
def skipBytes (s : Rd) (n : Nat) : Rd := ⟨s.pos + 8 * n, s.ov⟩

/-- CRC8 lookup table flac_dmx_crc8_table from reframe_flac.c. -/
def flac_dmx_crc8_table : List Nat :=
[0x00, 0x07, 0x0E, 0x09, 0x1C, 0x1B, 0x12, 0x15,
 0x38, 0x3F, 0x36, 0x31, 0x24, 0x23, 0x2A, 0x2D,
 0x70, 0x77, 0x7E, 0x79, 0x6C, 0x6B, 0x62, 0x65,
 0x48, 0x4F, 0x46, 0x41, 0x54, 0x53, 0x5A, 0x5D,
 0xE0, 0xE7, 0xEE, 0xE9, 0xFC, 0xFB, 0xF2, 0xF5,
 0xD8, 0xDF, 0xD6, 0xD1, 0xC4, 0xC3, 0xCA, 0xCD,
 0x90, 0x97, 0x9E, 0x99, 0x8C, 0x8B, 0x82, 0x85,
 0xA8, 0xAF, 0xA6, 0xA1, 0xB4, 0xB3, 0xBA, 0xBD,
 0xC7, 0xC0, 0xC9, 0xCE, 0xDB, 0xDC, 0xD5, 0xD2,
 0xFF, 0xF8, 0xF1, 0xF6, 0xE3, 0xE4, 0xED, 0xEA,
 0xB7, 0xB0, 0xB9, 0xBE, 0xAB, 0xAC, 0xA5, 0xA2,
 0x8F, 0x88, 0x81, 0x86, 0x93, 0x94, 0x9D, 0x9A,
 0x27, 0x20, 0x29, 0x2E, 0x3B, 0x3C, 0x35, 0x32,
 0x1F, 0x18, 0x11, 0x16, 0x03, 0x04, 0x0D, 0x0A,
 0x57, 0x50, 0x59, 0x5E, 0x4B, 0x4C, 0x45, 0x42,
 0x6F, 0x68, 0x61, 0x66, 0x73, 0x74, 0x7D, 0x7A,
 0x89, 0x8E, 0x87, 0x80, 0x95, 0x92, 0x9B, 0x9C,
 0xB1, 0xB6, 0xBF, 0xB8, 0xAD, 0xAA, 0xA3, 0xA4,
 0xF9, 0xFE, 0xF7, 0xF0, 0xE5, 0xE2, 0xEB, 0xEC,
 0xC1, 0xC6, 0xCF, 0xC8, 0xDD, 0xDA, 0xD3, 0xD4,
 0x69, 0x6E, 0x67, 0x60, 0x75, 0x72, 0x7B, 0x7C,
 0x51, 0x56, 0x5F, 0x58, 0x4D, 0x4A, 0x43, 0x44,
 0x19, 0x1E, 0x17, 0x10, 0x05, 0x02, 0x0B, 0x0C,
 0x21, 0x26, 0x2F, 0x28, 0x3D, 0x3A, 0x33, 0x34,
 0x4E, 0x49, 0x40, 0x47, 0x52, 0x55, 0x5C, 0x5B,
 0x76, 0x71, 0x78, 0x7F, 0x6A, 0x6D, 0x64, 0x63,
 0x3E, 0x39, 0x30, 0x37, 0x22, 0x25, 0x2C, 0x2B,
 0x06, 0x01, 0x08, 0x0F, 0x1A, 0x1D, 0x14, 0x13,
 0xAE, 0xA9, 0xA0, 0xA7, 0xB2, 0xB5, 0xBC, 0xBB,
 0x96, 0x91, 0x98, 0x9F, 0x8A, 0x8D, 0x84, 0x83,
 0xDE, 0xD9, 0xD0, 0xD7, 0xC2, 0xC5, 0xCC, 0xCB,
 0xE6, 0xE1, 0xE8, 0xEF, 0xFA, 0xFD, 0xF4, 0xF3]

/-- flac_dmx_crc8: fold of the table over the bytes, starting at 0. -/
def flac_dmx_crc8 (data : List Nat) : Nat :=
  data.foldl (fun c b => flac_dmx_crc8_table.getD (c ^^^ b % 256) 0) 0

/-- CRC16 lookup table flac_dmx_crc16_table from reframe_flac.c. -/
def flac_dmx_crc16_table : List Nat :=
[0x0000, 0x0580, 0x0F80, 0x0A00, 0x1B80, 0x1E00, 0x1400, 0x1180,
 0x3380, 0x3600, 0x3C00, 0x3980, 0x2800, 0x2D80, 0x2780, 0x2200,
 0x6380, 0x6600, 0x6C00, 0x6980, 0x7800, 0x7D80, 0x7780, 0x7200,
 0x5000, 0x5580, 0x5F80, 0x5A00, 0x4B80, 0x4E00, 0x4400, 0x4180,
 0xC380, 0xC600, 0xCC00, 0xC980, 0xD800, 0xDD80, 0xD780, 0xD200,
 0xF000, 0xF580, 0xFF80, 0xFA00, 0xEB80, 0xEE00, 0xE400, 0xE180,
 0xA000, 0xA580, 0xAF80, 0xAA00, 0xBB80, 0xBE00, 0xB400, 0xB180,
 0x9380, 0x9600, 0x9C00, 0x9980, 0x8800, 0x8D80, 0x8780, 0x8200,
 0x8381, 0x8601, 0x8C01, 0x8981, 0x9801, 0x9D81, 0x9781, 0x9201,
 0xB001, 0xB581, 0xBF81, 0xBA01, 0xAB81, 0xAE01, 0xA401, 0xA181,
 0xE001, 0xE581, 0xEF81, 0xEA01, 0xFB81, 0xFE01, 0xF401, 0xF181,
 0xD381, 0xD601, 0xDC01, 0xD981, 0xC801, 0xCD81, 0xC781, 0xC201,
 0x4001, 0x4581, 0x4F81, 0x4A01, 0x5B81, 0x5E01, 0x5401, 0x5181,
 0x7381, 0x7601, 0x7C01, 0x7981, 0x6801, 0x6D81, 0x6781, 0x6201,
 0x2381, 0x2601, 0x2C01, 0x2981, 0x3801, 0x3D81, 0x3781, 0x3201,
 0x1001, 0x1581, 0x1F81, 0x1A01, 0x0B81, 0x0E01, 0x0401, 0x0181,
 0x0383, 0x0603, 0x0C03, 0x0983, 0x1803, 0x1D83, 0x1783, 0x1203,
 0x3003, 0x3583, 0x3F83, 0x3A03, 0x2B83, 0x2E03, 0x2403, 0x2183,
 0x6003, 0x6583, 0x6F83, 0x6A03, 0x7B83, 0x7E03, 0x7403, 0x7183,
 0x5383, 0x5603, 0x5C03, 0x5983, 0x4803, 0x4D83, 0x4783, 0x4203,
 0xC003, 0xC583, 0xCF83, 0xCA03, 0xDB83, 0xDE03, 0xD403, 0xD183,
 0xF383, 0xF603, 0xFC03, 0xF983, 0xE803, 0xED83, 0xE783, 0xE203,
 0xA383, 0xA603, 0xAC03, 0xA983, 0xB803, 0xBD83, 0xB783, 0xB203,
 0x9003, 0x9583, 0x9F83, 0x9A03, 0x8B83, 0x8E03, 0x8403, 0x8183,
 0x8002, 0x8582, 0x8F82, 0x8A02, 0x9B82, 0x9E02, 0x9402, 0x9182,
 0xB382, 0xB602, 0xBC02, 0xB982, 0xA802, 0xAD82, 0xA782, 0xA202,
 0xE382, 0xE602, 0xEC02, 0xE982, 0xF802, 0xFD82, 0xF782, 0xF202,
 0xD002, 0xD582, 0xDF82, 0xDA02, 0xCB82, 0xCE02, 0xC402, 0xC182,
 0x4382, 0x4602, 0x4C02, 0x4982, 0x5802, 0x5D82, 0x5782, 0x5202,
 0x7002, 0x7582, 0x7F82, 0x7A02, 0x6B82, 0x6E02, 0x6402, 0x6182,
 0x2002, 0x2582, 0x2F82, 0x2A02, 0x3B82, 0x3E02, 0x3402, 0x3182,
 0x1382, 0x1602, 0x1C02, 0x1982, 0x0802, 0x0D82, 0x0782, 0x0202]

/-- flac_dmx_crc16: running fold, low byte of the crc xor the data byte
indexes the table, xor with the crc shifted right by 8. -/
def flac_dmx_crc16 (data : List Nat) : Nat :=
  data.foldl (fun c b => flac_dmx_crc16_table.getD ((c &&& 0xFF) ^^^ b % 256) 0 ^^^ (c >>> 8)) 0

/-- flac_dmx_block_sizes table. -/
def flac_dmx_block_sizes : List Nat :=
[0, 192, 576, 1152, 2304, 4608, 0, 0, 256, 512, 1024, 2048, 4096, 8192, 16384, 32768]

/-- flac_dmx_samplerates table. -/
def flac_dmx_samplerates : List Nat :=
[0, 88200, 176400, 192000, 8000, 16000, 22050, 24000, 32000, 44100, 48000, 96000]

/-- FLACHeader record from reframe_flac.c. -/
structure FLACHeader where
  block_size : Nat
  sample_rate : Nat
  channels : Nat
deriving Repr, DecidableEq

/-- The variable-length frame or sample number loop inside
flac_parse_header: while the res accumulator has the top bit selected,
read another byte, reject unless its top two bits are the continuation
pattern 10, and fold it in with 32-bit wraparound.  The top mask starts at
64 and is shifted left by 5 each round, so it vanishes modulo two to the
32 after at most seven rounds; fuel 8 therefore never runs out when
entered from flac_parse_header. -/
def varLoopF : Nat → List Nat → Rd → Nat → Nat → Option Rd
  | 0, _, s, _, _ => some s
  | fuel + 1, d, s, res, top =>
    if res &&& top = 0 then some s
    else
      let (b, s1) := readBits d s 8
      if b < 128 ∨ 192 ≤ b then none
      else varLoopF fuel d s1 (((res <<< 6) + (b - 128)) % 2 ^ 32) ((top <<< 5) % 2 ^ 32)

/-- First stage of flac_parse_header: the fixed 32-bit head, reads in
source order the 15-bit sync constant, the blocking-strategy bit, the
4-bit block-size code (reject 0), the 4-bit sample-rate code (reject 15),
the 4-bit channel assignment (values 8 to 10 collapse to 1, 11 and above
reject), the 3-bit sample-size code (reject 3) and the reserved bit
(reject 1); then the lead byte of the variable-length number (reject a
continuation-shaped byte or one of 254 and 255).  Returns the block-size
code, sample-rate code, folded channel value, lead byte and cursor. -/
def parseHead (data : List Nat) : Option (Nat × Nat × Nat × Nat × Rd) :=
  let s0 : Rd := ⟨0, false⟩
  let (sync, s) := readBits data s0 15
  if sync ≠ 0x7FFC then none else
  let (_, s) := readBits data s 1
  let (bsCode, s) := readBits data s 4
  if bsCode = 0 then none else
  let (srCode, s) := readBits data s 4
  if srCode = 15 then none else
  let (chRaw, s) := readBits data s 4
  if 11 ≤ chRaw then none else
  let (bps, s) := readBits data s 3
  if bps = 3 then none else
  let (rsv, s) := readBits data s 1
  if rsv ≠ 0 then none else
  let (res0, s) := readBits data s 8
  if res0 &&& 0xC0 = 0x80 ∨ 0xFE ≤ res0 then none else
  some (bsCode, srCode, if chRaw < 8 then chRaw else 1, res0, s)

/-- Block-size resolution of flac_parse_header: codes 6 and 7 read one
or two further bytes (value plus one), the rest index the fixed table. -/
def parseBlockSize (data : List Nat) (bsCode : Nat) (s : Rd) : Nat × Rd :=
  if bsCode = 6 then
    let (v, s) := readBits data s 8
    (1 + v, s)
  else if bsCode = 7 then
    let (v, s) := readBits data s 16
    (1 + v, s)
  else (flac_dmx_block_sizes.getD bsCode 0, s)

/-- Sample-rate resolution of flac_parse_header: code 0 inherits the
established rate, codes 12 to 14 read a raw one- or two-byte value (code
14 scaled by ten), the rest index the fixed table. -/
def parseSampleRate (data : List Nat) (ctxSr srCode : Nat) (s : Rd) : Nat × Rd :=
  if srCode = 0 then (ctxSr, s)
  else if srCode &&& 0xC = 0xC then
    if srCode = 12 then
      let (v, s) := readBits data s 8
      (v, s)
    else if srCode = 13 then
      let (v, s) := readBits data s 16
      (v, s)
    else
      let (v, s) := readBits data s 16
      (10 * v, s)
  else (flac_dmx_samplerates.getD srCode 0, s)

/-- Tail of flac_parse_header: header CRC8 over the bytes consumed so far
against the stored byte, then the first subframe byte (reserved bit zero,
6-bit type in the allowed set), then the overflow check, and on success
the decoded header record. -/
def parseTail (data : List Nat) (chLay blockSize sampleRate : Nat) (s : Rd) :
    Option FLACHeader :=
  let pos := s.pos / 8
  let (crc, s) := readBits data s 8
  if crc ≠ flac_dmx_crc8 (data.take pos) then none else
  let (sfr, s) := readBits data s 1
  if sfr ≠ 0 then none else
  let (sft, s) := readBits data s 6
  if sft = 0 ∨ sft = 1 ∨ (8 ≤ sft ∧ sft ≤ 12) ∨ 32 ≤ sft then
    if s.ov then none else some ⟨blockSize, sampleRate, chLay⟩
  else none

/-- flac_parse_header from reframe_flac.c, transcribed read by read and
staged into the helpers above.  ctxSr is the established sample rate of
the context, inherited when the sample-rate code is 0.  Returns none
exactly where the C code returns GF_FALSE. -/
def flac_parse_header (ctxSr : Nat) (data : List Nat) : Option FLACHeader :=
  if data.length < 17 then none else
  match parseHead data with
  | none => none
  | some (bsCode, srCode, chLay, res0, s) =>
    match varLoopF 8 data s res0 ((res0 &&& 128) >>> 1) with
    | none => none
    | some s =>
      let bsp := parseBlockSize data bsCode s
      let srp := parseSampleRate data ctxSr srCode bsp.2
      parseTail data chLay bsp.1 srp.1 srp.2

/-! ## Data model of the reframer context and its outputs -/

/-- Return codes of the process callback (subset of GF_Err used here). -/
inductive GFErr where
  | ok
  | eos
  | nonCompliantBitstream
deriving Repr, DecidableEq

/-- Modelled from the spec: the GF_AUDIO_CH channel bit constants from the
host constants header (not in the given source tree); chosen as distinct
bits, their exact numeric values are irrelevant to every claim. -/
def GF_AUDIO_CH_FRONT_LEFT : Nat := 1
def GF_AUDIO_CH_FRONT_RIGHT : Nat := 2
def GF_AUDIO_CH_FRONT_CENTER : Nat := 4
def GF_AUDIO_CH_LFE : Nat := 8
def GF_AUDIO_CH_REAR_SURROUND_LEFT : Nat := 16
def GF_AUDIO_CH_REAR_SURROUND_RIGHT : Nat := 32
def GF_AUDIO_CH_SIDE_SURROUND_LEFT : Nat := 64
def GF_AUDIO_CH_SIDE_SURROUND_RIGHT : Nat := 128
def GF_AUDIO_CH_REAR_CENTER : Nat := 256

/-- flac_channel_layout from reframe_flac.c: fixed table mapping the
channel-assignment value to a layout bitmask; 0 outside 0..7. -/
def flac_channel_layout (inLay : Nat) : Nat :=
  match inLay with
  | 0 => GF_AUDIO_CH_FRONT_CENTER
  | 1 => GF_AUDIO_CH_FRONT_LEFT ||| GF_AUDIO_CH_FRONT_RIGHT
  | 2 => GF_AUDIO_CH_FRONT_LEFT ||| GF_AUDIO_CH_FRONT_RIGHT ||| GF_AUDIO_CH_FRONT_CENTER
  | 3 => GF_AUDIO_CH_FRONT_LEFT ||| GF_AUDIO_CH_FRONT_RIGHT |||
         GF_AUDIO_CH_REAR_SURROUND_LEFT ||| GF_AUDIO_CH_REAR_SURROUND_RIGHT
  | 4 => GF_AUDIO_CH_FRONT_LEFT ||| GF_AUDIO_CH_FRONT_RIGHT ||| GF_AUDIO_CH_FRONT_CENTER |||
         GF_AUDIO_CH_REAR_SURROUND_LEFT ||| GF_AUDIO_CH_REAR_SURROUND_RIGHT
  | 5 => GF_AUDIO_CH_FRONT_LEFT ||| GF_AUDIO_CH_FRONT_RIGHT ||| GF_AUDIO_CH_FRONT_CENTER |||
         GF_AUDIO_CH_REAR_SURROUND_LEFT ||| GF_AUDIO_CH_REAR_SURROUND_RIGHT ||| GF_AUDIO_CH_LFE
  | 6 => GF_AUDIO_CH_FRONT_LEFT ||| GF_AUDIO_CH_FRONT_RIGHT ||| GF_AUDIO_CH_FRONT_CENTER |||
         GF_AUDIO_CH_SIDE_SURROUND_LEFT ||| GF_AUDIO_CH_SIDE_SURROUND_RIGHT ||| GF_AUDIO_CH_LFE |||
         GF_AUDIO_CH_REAR_CENTER
  | 7 => GF_AUDIO_CH_FRONT_LEFT ||| GF_AUDIO_CH_FRONT_RIGHT ||| GF_AUDIO_CH_FRONT_CENTER |||
         GF_AUDIO_CH_SIDE_SURROUND_LEFT ||| GF_AUDIO_CH_SIDE_SURROUND_RIGHT ||| GF_AUDIO_CH_LFE |||
         GF_AUDIO_CH_REAR_SURROUND_LEFT ||| GF_AUDIO_CH_REAR_SURROUND_RIGHT
  | _ => 0

/-- Modelled from the spec: gf_crc_32, the host checksum used to track
decoder-configuration changes; a standard bitwise CRC-32 (only determinism
matters to the claims). -/
def gf_crc_32 (data : List Nat) : Nat :=
  (data.foldl
    (fun c b =>
      (List.range 8).foldl
        (fun c _ => if c % 2 = 1 then (c / 2) ^^^ 0xEDB88320 else c / 2)
        (c ^^^ b % 256))
    0xFFFFFFFF) ^^^ 0xFFFFFFFF

/-- GF_FLACDmxCtx, the persistent state of one reframer instance.
Fields that feed only the packet byte-offset property (byte_offset), the
allocator capacity (flac_buffer_alloc), or that the source never writes to
a nonzero value (resume_from) are omitted; C doubles are modelled as
rationals.  The byte reservoir is the buffer field. -/
structure DmxCtx where
  docrc : Bool := false
  timescale : Nat := 0
  opid : Bool := false
  is_playing : Bool := false
  is_file : Bool := false
  initial_play_done : Bool := false
  in_seek : Bool := false
  start_range : ℚ := 0
  file_pos : Nat := 0
  initialized : Bool := false
  in_error : Bool := false
  is_sync : Bool := false
  copy_props : Bool := false
  sample_rate : Nat := 0
  nb_channels : Nat := 0
  bits_per_sample : Nat := 0
  block_size : Nat := 0
  ch_layout : Nat := 0
  durNum : Nat := 0
  durDen : Nat := 0
  cts : Nat := 0
  dsi_crc : Nat := 0
  src_pck : Bool := false
  indexes : List (Nat × ℚ) := []
  buffer : List Nat := []
deriving Repr, DecidableEq

/-- One emitted frame packet: payload bytes, composition timestamp,
duration, and the established sample rate and timescale at the moment of
the cts update (the divisor of that update). -/
structure FrameOut where
  bytes : List Nat
  cts : Nat
  dur : Nat
  srAt : Nat
  tsAt : Nat
deriving Repr, DecidableEq

/-- One configuration emission of flac_dmx_check_pid: the decoder-config
blob plus the main stream properties set alongside it. -/
structure CfgOut where
  dsi : List Nat
  sampleRate : Nat
  nbChannels : Nat
  samplesPerFrame : Nat
  audioBps : Nat
  timescaleProp : Nat
  durNum : Nat
  durDen : Nat
  chLayoutProp : Option Nat
deriving Repr, DecidableEq

/-- Observable downstream outputs of one or more process invocations. -/
inductive Output where
  | frame (f : FrameOut)
  | config (c : CfgOut)
  | propSr (v : Nat)
  | propLayout (v : Nat)
  | eosMark
deriving Repr, DecidableEq

/-- flac_dmx_update_cts: with a configured output timescale the increment
is nb_samp times timescale divided (integer division) by the established
sample rate, otherwise the raw sample count; the addition wraps at 64
bits as the cts field is a u64.  The 64-bit product cannot wrap since
both factors are 32-bit values. -/
def flac_dmx_update_cts (st : DmxCtx) (nbSamp : Nat) : DmxCtx :=
  if st.timescale ≠ 0 then
    {st with cts := (st.cts + nbSamp * st.timescale / st.sample_rate) % 2 ^ 64}
  else
    {st with cts := (st.cts + nbSamp) % 2 ^ 64}

/-- Modelled from the spec: gf_timestamp_rescale converts a sample count
into the negotiated output timescale (rounding to nearest); it feeds only
the duration field of emitted packets. -/
def gf_timestamp_rescale (v oldTs newTs : Nat) : Nat :=
  (v * newTs + oldTs / 2) / oldTs

/-- Truncating cast of a nonnegative rational to an unsigned integer, as
the C casts of double expressions to u64. -/
def ratFloorNat (q : ℚ) : Nat := q.floor.toNat

/-- flac_dmx_check_pid: computes the checksum of the decoder-config bytes,
creates the output pid if needed, and when the checksum changed or a
reconfiguration is pending reemits the stream configuration. -/
def flac_dmx_check_pid (st : DmxCtx) (dsi : List Nat) : DmxCtx × Option CfgOut :=
  let crc := gf_crc_32 dsi
  let st := {st with opid := true}
  if st.dsi_crc = crc ∧ st.copy_props = false then (st, none)
  else
    let st := {st with dsi_crc := crc, copy_props := false}
    let cfg : CfgOut :=
      { dsi := dsi
        sampleRate := st.sample_rate
        nbChannels := st.nb_channels
        samplesPerFrame := st.block_size
        audioBps := st.bits_per_sample
        timescaleProp := if st.timescale ≠ 0 then st.timescale else st.sample_rate
        durNum := st.durNum
        durDen := st.durDen
        chLayoutProp := if 1 < st.ch_layout then some (flac_channel_layout st.ch_layout) else none }
    (st, some cfg)

/-! ## Metadata parsing (magic plus block list, STREAMINFO extraction) -/

/-- Decoded STREAMINFO fields as written into the context. -/
structure SInfo where
  sr : Nat
  nch : Nat
  bps : Nat
  blk : Nat
  durNum : Nat
  durDen : Nat
deriving Repr, DecidableEq

/-- Result of the metadata header scan at stream initialization. -/
inductive MetaRes where
  | badMagic
  | noDsi
  | ok (si : SInfo) (dsiEnd : Nat)
deriving Repr, DecidableEq

/-- The metadata block loop of flac_dmx_process (initialization branch):
reads last-flag, 7-bit type and 24-bit length per block; a type 0 block
is STREAMINFO, whose fields overwrite the accumulator and whose final
byte position becomes dsi_end; other blocks are skipped by length.  Every
round advances the cursor by at least four bytes, so fuel equal to the
window length plus one never runs out. -/
def metaLoopF : Nat → List Nat → Rd → Option (SInfo × Nat) → Option (SInfo × Nat)
  | 0, _, _, acc => acc
  | fuel + 1, d, s, acc =>
    if bsAvailable d s = 0 then acc
    else
      let (last, s) := readBits d s 1
      let (typ, s) := readBits d s 7
      let (len, s) := readBits d s 24
      if typ = 0 then
        let (mn, s) := readBits d s 16
        let (mx, s) := readBits d s 16
        let (_, s) := readBits d s 24
        let (_, s) := readBits d s 24
        let (sr, s) := readBits d s 20
        let (nch, s) := readBits d s 3
        let (bps, s) := readBits d s 5
        let (durNum, s) := readBits d s 36
        let s := skipBytes s 16
        let acc := some (⟨sr, 1 + nch, 1 + bps, if mn = mx then mn else 0, durNum, sr⟩, s.pos / 8)
        if last = 1 then acc else metaLoopF fuel d s acc
      else
        let s := skipBytes s len
        if last = 1 then acc else metaLoopF fuel d s acc

/-- Magic check plus metadata block loop over the bytes that precede the
first accepted frame candidate. -/
def metaParse (d : List Nat) : MetaRes :=
  let s0 : Rd := ⟨0, false⟩
  let (magic, s) := readBits d s0 32
  if magic ≠ 0x664C6143 then .badMagic
  else
    match metaLoopF (d.length + 1) d s none with
    | none => .noDsi
    | some (si, dsiEnd) => .ok si dsiEnd

/-! ## Frame synchronizer scan -/

/-- Outcome of one scan for the next frame candidate. -/
inductive ScanRes where
  | needData
  | found (q : Nat) (h : FLACHeader)
deriving Repr, DecidableEq

/-- The candidate search loop of flac_dmx_process, lines 608 to 640: walk
the pending window for a 0xFF byte (the memchr call examined one position
at a time here); at each such position q stop and wait for more data when
fewer than 18 bytes follow, otherwise test the sync mask on the next
byte, decode the header, and apply the acceptance policy: first frame
accepted on decode alone; otherwise accepted without footer check only
when docrc is off and sample rate and channel layout are unchanged; else
accepted exactly when the CRC16 of the bytes from the window start up to
the two footer bytes equals those two bytes read little endian.  A
rejected candidate resumes scanning one byte further.  tail is the
suffix of buf starting at index i. -/
def syncScanAux (st : DmxCtx) (buf : List Nat) : List Nat → Nat → ScanRes
  | [], _ => .needData
  | b :: rest, i =>
    if b % 256 = 0xFF then
      if buf.length ≤ i + 17 then .needData
      else if byteAt buf (i + 1) &&& 0xFC = 0xF8 then
        match flac_parse_header st.sample_rate (buf.drop i) with
        | some h =>
          if st.initialized = false then .found i h
          else if st.docrc = false ∧ h.sample_rate = st.sample_rate ∧ h.channels = st.ch_layout then
            .found i h
          else if flac_dmx_crc16 (buf.take (i - 2)) =
                    byteAt buf (i - 1) * 256 + byteAt buf (i - 2) then
            .found i h
          else syncScanAux st buf rest (i + 1)
        | none => syncScanAux st buf rest (i + 1)
      else syncScanAux st buf rest (i + 1)
    else syncScanAux st buf rest (i + 1)

/-- Scan of the pending window, starting two bytes in as the loop does. -/
def syncScan (st : DmxCtx) (buf : List Nat) : ScanRes :=
  syncScanAux st buf (buf.drop 2) 2

/-! ## The per-invocation process loop -/

/-- Result of draining the reservoir in one process invocation: final
context, unconsumed window suffix, ordered outputs, return code, and a
flag recording that some emitted region failed to re-decode at line 717
so the stale header local was read (uninitialized C state on the first
such read of an invocation). -/
structure DrainOut where
  st : DmxCtx
  leftover : List Nat
  outs : List Output
  ret : GFErr
  fb : Bool
deriving Repr, DecidableEq

/-- Boundary choice at the top of each loop round: in final flush the
whole window is the frame and the header local keeps its prior value; in
normal rounds the synchronizer supplies the candidate and writes the
header local. -/
def pickBoundary (st : DmxCtx) (buf : List Nat) (flush : Bool) (hdr : FLACHeader) :
    Option (Nat × FLACHeader) :=
  if flush then some (buf.length, hdr)
  else
    match syncScan st buf with
    | .needData => none
    | .found q hC => some (q, hC)

/-- Initialization round of the loop (lines 647 to 705): magic plus
metadata list over the bytes before the candidate; on success writes the
STREAMINFO fields and the channel layout from the header local, runs
flac_dmx_check_pid on the bytes from just after the magic to the end of
STREAMINFO, and marks the stream initialized.  none signals the fatal
non-compliant stream. -/
def initStep (st : DmxCtx) (buf : List Nat) (nextFrame : Nat) (hdr : FLACHeader) :
    Option (DmxCtx × List Output) :=
  match metaParse (buf.take nextFrame) with
  | .badMagic => none
  | .noDsi => none
  | .ok si dsiEnd =>
    let st := {st with sample_rate := si.sr, nb_channels := si.nch,
                       bits_per_sample := si.bps, block_size := si.blk,
                       durNum := si.durNum, durDen := si.durDen,
                       ch_layout := hdr.channels}
    let pc := flac_dmx_check_pid st ((buf.drop 4).take (dsiEnd - 4))
    let st := {pc.1 with initialized := true}
    some (st, match pc.2 with
      | some cfg => [Output.config cfg]
      | none => [])

/-- Property updates of the emission round (lines 718 to 728): when the
decoded sample rate differs from the established one it is stored and the
property reemitted, then likewise for the channel layout (with the layout
property only for more than one channel). -/
def emitProps (st : DmxCtx) (hdr : FLACHeader) : DmxCtx × List Output :=
  let sp : DmxCtx × List Output :=
    if hdr.sample_rate ≠ st.sample_rate then
      ({st with sample_rate := hdr.sample_rate}, [Output.propSr hdr.sample_rate])
    else (st, [])
  if hdr.channels ≠ sp.1.ch_layout then
    ({sp.1 with ch_layout := hdr.channels},
     sp.2 ++ (if 1 < hdr.channels then
       [Output.propLayout (flac_channel_layout hdr.channels)] else []))
  else (sp.1, sp.2)

/-- Seek resolution of the emission round (lines 732 to 738): while
seeking, once the frame end reaches the requested sample position the
seek suppression ends. -/
def seekCheck (st : DmxCtx) (nb : Nat) : DmxCtx :=
  if st.in_seek then
    if ratFloorNat (st.start_range * (st.sample_rate : ℚ)) ≤ st.cts + nb then
      {st with in_seek := false}
    else st
  else st

/-- Packet-timestamp takeover of the emission round (lines 740 to 743):
with a configured timescale, an empty reservoir before the append and a
pending packet timestamp, the clock is set from that timestamp, consumed
once. -/
def ctsHandoff (st : DmxCtx) (ctsLocal : Option Nat) (prevPckSize : Nat) :
    DmxCtx × Option Nat :=
  if st.timescale ≠ 0 ∧ prevPckSize = 0 ∧ ctsLocal.isSome then
    ({st with cts := ctsLocal.getD 0}, none)
  else (st, ctsLocal)

/-- Packet emission of the emission round (lines 745 to 763): unless
suppressed by a pending seek, one frame packet carrying the payload, the
clock value, the duration in the negotiated timescale, and the
established rate and timescale at the clock update. -/
def frameOuts (st : DmxCtx) (bytes : List Nat) (nb : Nat) : List Output :=
  if st.in_seek = false then
    [Output.frame
      { bytes := bytes
        cts := st.cts
        dur := if st.timescale = 0 ∨ st.timescale = st.sample_rate then nb
               else gf_timestamp_rescale nb st.sample_rate st.timescale
        srAt := st.sample_rate
        tsAt := st.timescale }]
  else []

/-- Emission round of the loop (lines 707 to 772): resync drop when the
window head does not look like a frame start; otherwise re-decode the
head frame (line 717, keeping the stale header local on failure), update
the sample-rate and channel-layout properties, resolve the pending seek,
take over the packet timestamp when the reservoir was empty, emit the
frame unless suppressed by the seek, and advance the clock.  Returns the
new context, the outputs, the header local, the timestamp local, and the
stale-header flag. -/
def emitStep (st : DmxCtx) (buf : List Nat) (nextFrame : Nat) (hdr : FLACHeader)
    (ctsLocal : Option Nat) (prevPckSize : Nat) :
    DmxCtx × List Output × FLACHeader × Option Nat × Bool :=
  if byteAt buf 0 ≠ 0xFF ∧ byteAt buf 1 &&& 0xFC ≠ 0xF8 then
    ({st with is_sync := false}, [], hdr, ctsLocal, false)
  else
    let st := {st with is_sync := true}
    let pr := flac_parse_header st.sample_rate (buf.take nextFrame)
    let hdr2 := pr.getD hdr
    let p := emitProps st hdr2
    let st := seekCheck p.1 hdr2.block_size
    let h := ctsHandoff st ctsLocal prevPckSize
    let emit := frameOuts h.1 (buf.take nextFrame) hdr2.block_size
    (flac_dmx_update_cts h.1 hdr2.block_size, p.2 ++ emit, hdr2, h.2, pr.isNone)

/-- The while loop of flac_dmx_process over the pending window (lines 599
to 773), composed of the step functions above.  hdr is the header local
of the invocation (junk until first written), ctsLocal the packet cts
local, prevPckSize the reservoir size before the append, flush the
final_flush flag.  Every round consumes at least two bytes of the window,
so fuel of window length plus one never runs out. -/
def drainF : Nat → DmxCtx → List Nat → FLACHeader → Option Nat → Nat → Bool → DrainOut
  | 0, st, buf, _, _, _, _ => ⟨st, buf, [], .ok, false⟩
  | fuel + 1, st, buf, hdr, ctsLocal, prevPckSize, flush =>
    if buf.length ≤ 20 then ⟨st, buf, [], .ok, false⟩
    else
      match pickBoundary st buf flush hdr with
      | none => ⟨st, buf, [], .ok, false⟩
      | some (nextFrame, hdr) =>
        if st.initialized = false then
          match initStep st buf nextFrame hdr with
          | none => ⟨{st with in_error := true}, [], [], .nonCompliantBitstream, false⟩
          | some (st2, outs) =>
            if st2.is_playing = false then ⟨st2, buf.drop nextFrame, outs, .ok, false⟩
            else
              let r := drainF fuel st2 (buf.drop nextFrame) hdr ctsLocal prevPckSize flush
              ⟨r.st, r.leftover, outs ++ r.outs, r.ret, r.fb⟩
        else
          let e := emitStep st buf nextFrame hdr ctsLocal prevPckSize
          let r := drainF fuel e.1 (buf.drop nextFrame) e.2.2.1 e.2.2.2.1 prevPckSize flush
          ⟨r.st, r.leftover, e.2.1 ++ r.outs, r.ret, e.2.2.2.2 || r.fb⟩

/-- Result of one process invocation. -/
structure ProcOut where
  st : DmxCtx
  outs : List Output
  ret : GFErr
  fb : Bool
deriving Repr, DecidableEq

/-- flac_dmx_process for an invocation that finds one input packet
holding chunk (with composition timestamp pckCts when the input pid is
timed): sticky error exit, idle exit when not playing, append to the
reservoir, drain, then retain the unconsumed suffix. -/
def flac_dmx_process_pck (st : DmxCtx) (junk : FLACHeader) (pckCts : Option Nat)
    (chunk : List Nat) : ProcOut :=
  if st.in_error then ⟨st, [], .nonCompliantBitstream, false⟩
  else if st.opid ∧ st.is_playing = false then ⟨st, [], .ok, false⟩
  else
    let prevSize := st.buffer.length
    let buf := st.buffer ++ chunk
    let ctsIn : Option Nat := if st.timescale ≠ 0 then pckCts else none
    let st := if st.timescale ≠ 0 ∧ st.cts = 0 ∧ ctsIn.isSome then
        {st with cts := ctsIn.getD 0}
      else st
    let prevSize := if ctsIn.isNone then 0 else prevSize
    let r := drainF (buf.length + 1) st buf junk ctsIn prevSize false
    ⟨{r.st with buffer := r.leftover}, r.outs, r.ret, r.fb⟩

/-- flac_dmx_process for an invocation with no packet and end of stream
signaled upstream: empty reservoir closes the stream; otherwise the
residual window is force flushed, the reservoir cleared, and the restart
reaches the end-of-stream exit. -/
def flac_dmx_process_eos (st : DmxCtx) (junk : FLACHeader) : ProcOut :=
  if st.in_error then ⟨st, [], .nonCompliantBitstream, false⟩
  else if st.opid ∧ st.is_playing = false then ⟨st, [], .ok, false⟩
  else if st.buffer.isEmpty then ⟨{st with src_pck := false}, [Output.eosMark], .eos, false⟩
  else
    let r := drainF (st.buffer.length + 1) st st.buffer junk none st.buffer.length true
    match r.ret with
    | .ok =>
      let st2 := {r.st with buffer := []}
      if st2.opid ∧ st2.is_playing = false then ⟨st2, r.outs, .ok, r.fb⟩
      else ⟨{st2 with src_pck := false}, r.outs ++ [Output.eosMark], .eos, r.fb⟩
    | e => ⟨{r.st with buffer := []}, r.outs, e, r.fb⟩

/-- Feed a list of chunks through successive process invocations and
finish with the end-of-stream invocation, concatenating all outputs. -/
def runChunks (st : DmxCtx) (junk : FLACHeader) : List (List Nat) → ProcOut
  | [] => flac_dmx_process_eos st junk
  | c :: cs =>
    let r := flac_dmx_process_pck st junk none c
    let r2 := runChunks r.st junk cs
    ⟨r2.st, r.outs ++ r2.outs, r2.ret, r.fb || r2.fb⟩

/-- Projection of the outputs to the emitted frames as the pair of
payload bytes and composition timestamp. -/
def outFrames (outs : List Output) : List (List Nat × Nat) :=
  outs.filterMap fun o =>
    match o with
    | .frame f => some (f.bytes, f.cts)
    | _ => none

/-- Projection of the outputs to the full emitted frame records. -/
def outFrameRecs (outs : List Output) : List FrameOut :=
  outs.filterMap fun o =>
    match o with
    | .frame f => some f
    | _ => none

/-! ## Event handling (play, stop) -/

/-- Events consumed by flac_dmx_process_event. -/
inductive FEvt where
  | play (startRange : ℚ)
  | stop
  | setSpeed
deriving Repr, DecidableEq

/-- Result of one event dispatch: new state, whether the event was
canceled, and the upstream seek offset requested, if any. -/
structure EvtOut where
  st : DmxCtx
  canceled : Bool
  seekTo : Option Nat
deriving Repr, DecidableEq

/-- The seek-index scan of the play handler, lines 251 to 257: walk the
entries from the second one and on the first whose duration exceeds the
requested start return the preceding entry; no hit leaves position and
cts untouched. -/
def seekScanAux (t : ℚ) : List (Nat × ℚ) → (Nat × ℚ) → Option (Nat × ℚ)
  | [], _ => none
  | e :: rest, prev => if t < e.2 then some prev else seekScanAux t rest e

/-- Scan wrapper starting at index one with index zero as predecessor. -/
def seekScan (idx : List (Nat × ℚ)) (t : ℚ) : Option (Nat × ℚ) :=
  match idx with
  | [] => none
  | e0 :: rest => seekScanAux t rest e0

/-- flac_dmx_process_event: play resolves the seek index and posts an
upstream reposition; stop clears the playing flag, drops the held input
reference and resets cts to 0.  The filesystem duration probe of the
play path is out of scope per the spec and modelled as a no-op. -/
def flac_dmx_process_event (st : DmxCtx) (evt : FEvt) : EvtOut :=
  match evt with
  | .play startRange =>
    let st := if st.is_playing = false then {st with is_playing := true} else st
    if st.is_file = false then
      let st := if startRange ≠ 0 ∨ st.initial_play_done then {st with buffer := []} else st
      ⟨{st with initial_play_done := true}, false, none⟩
    else
      let st := {st with start_range := startRange, in_seek := true, file_pos := 0}
      let st :=
        if startRange ≠ 0 then
          match seekScan st.indexes startRange with
          | some e =>
            {st with cts := ratFloorNat (e.2 * (st.sample_rate : ℚ)), file_pos := e.1}
          | none => st
        else st
      if st.initial_play_done = false then
        let st := {st with initial_play_done := true}
        if st.file_pos = 0 then ⟨st, true, none⟩
        else ⟨{st with buffer := []}, true, some st.file_pos⟩
      else ⟨{st with buffer := []}, true, some st.file_pos⟩
  | .stop => ⟨{st with is_playing := false, src_pck := false, cts := 0}, false, none⟩
  | .setSpeed => ⟨st, true, none⟩

/-! ## Spec-side definitions, written from the wording of the claims -/

/-- Rounding to nearest (half up), the reading of round in the timestamp
claim. -/
def specRound (num den : Nat) : Nat := (2 * num + den) / (2 * den)

/-- The index entry whose duration is the greatest value at most t; for
an index with strictly increasing durations this is the last entry with
duration at most t. -/
def greatestLeEntry (idx : List (Nat × ℚ)) (t : ℚ) : Option (Nat × ℚ) :=
  (idx.filter fun e => decide (e.2 ≤ t)).getLast?

/-- Strictly increasing in both byte position and duration, the stated
well-formedness of the seek index. -/
def strictIncIdx (idx : List (Nat × ℚ)) : Prop :=
  List.Chain' (fun a b => a.1 < b.1 ∧ a.2 < b.2) idx

/-- Number of continuation bytes of the variable-length frame or sample
number field, determined by the run of leading one bits of the lead byte
after the first, capped at six as the top mask of the decoder vanishes
from its 32-bit register after six shifts. -/
def contCnt (b : Nat) : Nat :=
  if b.testBit 7 = false then 0
  else if b.testBit 6 = false then 0
  else if b.testBit 5 = false then 1
  else if b.testBit 4 = false then 2
  else if b.testBit 3 = false then 3
  else if b.testBit 2 = false then 4
  else if b.testBit 1 = false then 5
  else 6

/-- The frame-header acceptance conditions as enumerated by the
frame-header claim, phrased by direct byte arithmetic on the window: 17
bytes available, the 15-bit sync constant, nonzero block-size code,
sample-rate code below 15, channel code at most 10, sample-size code not
3, zero reserved bit, well-formed variable-length number (lead byte not a
continuation byte, below 254, every continuation byte with top bits 10),
header CRC8 over all bytes consumed so far matching the stored byte, and
the first subframe with zero reserved bit and an allowed type code. -/
def specHeaderOK (data : List Nat) : Bool :=
  let b2 := byteAt data 2
  let b3 := byteAt data 3
  let lead := byteAt data 4
  let cnt := contCnt lead
  let bsCode := b2 / 16
  let srCode := b2 % 16
  let bsExt := if bsCode = 6 then 1 else if bsCode = 7 then 2 else 0
  let srExt := if srCode = 12 then 1 else if srCode = 13 ∨ srCode = 14 then 2 else 0
  let pos := 5 + cnt + bsExt + srExt
  let sub := byteAt data (pos + 1)
  let typ := sub / 2 % 64
  decide (17 ≤ data.length) &&
  decide (byteAt data 0 = 0xFF ∧ byteAt data 1 / 2 = 0x7C) &&
  decide (bsCode ≠ 0) &&
  decide (srCode ≠ 15) &&
  decide (b3 / 16 ≤ 10) &&
  decide (b3 / 2 % 8 ≠ 3) &&
  decide (b3 % 2 = 0) &&
  decide (lead / 64 ≠ 2) &&
  decide (lead < 254) &&
  decide (∀ i, i < cnt → byteAt data (5 + i) / 64 = 2) &&
  decide (byteAt data pos = flac_dmx_crc8 (data.take pos)) &&
  decide (sub / 128 = 0) &&
  decide (typ = 0 ∨ typ = 1 ∨ (8 ≤ typ ∧ typ ≤ 12) ∨ 32 ≤ typ)

/-- The acceptance policy of the synchronizer at one candidate position,
phrased per the claim: sync byte, sync mask on the following byte, a
successful header decode, and then first-frame immediate acceptance, or
unchanged parameters with the CRC option off, or a matching footer CRC16
over the bytes from the window start up to the two trailing bytes read
little endian. -/
def candidateOK (st : DmxCtx) (buf : List Nat) (q : Nat) : Bool :=
  (byteAt buf q == 0xFF) &&
  (byteAt buf (q + 1) &&& 0xFC == 0xF8) &&
  (match flac_parse_header st.sample_rate (buf.drop q) with
   | none => false
   | some h =>
     !st.initialized ||
     (!st.docrc && (h.sample_rate == st.sample_rate) && (h.channels == st.ch_layout)) ||
     (flac_dmx_crc16 (buf.take (q - 2)) == byteAt buf (q - 1) * 256 + byteAt buf (q - 2)))

/-- Projection of the outputs to the configuration emissions. -/
def outConfigs (outs : List Output) : List CfgOut :=
  outs.filterMap fun o =>
    match o with
    | .config c => some c
    | _ => none

/-! ## Concrete test vectors

A small well-formed FLAC stream: magic, one STREAMINFO block (sample rate
44100, 2 channels, 16 bits, fixed block size 4096, 8192 total samples),
then frames with block-size code 12 (4096), sample-rate code 9 (44100),
channel code 1, sample-size code 4, varying frame numbers, correct header
CRC8, one constant-type subframe byte and zero padding.  tvTailA is a
frame truncated to 18 bytes.  The B stream declares sample rate 0 in
STREAMINFO and its frames use sample-rate code 0 (inherit). -/

def tvMetaA : List Nat :=
  [102, 76, 97, 67, 128, 0, 0, 34, 16, 0, 16, 0, 0, 0, 0, 0, 0, 0, 10, 196, 66,
   240, 0, 0, 32, 0, 0, 0, 0, 0, 0, 0, 0, 0, 0, 0, 0, 0, 0, 0, 0, 0]

def tvFrameA1 : List Nat := [255, 248, 201, 24, 0, 194, 0] ++ List.replicate 17 0

def tvFrameA2 : List Nat := [255, 248, 201, 24, 3, 203, 0] ++ List.replicate 17 0

def tvTailA : List Nat := [255, 248, 201, 24, 2, 204, 0] ++ List.replicate 11 0

def tvStreamA : List Nat := tvMetaA ++ tvFrameA1 ++ tvFrameA2 ++ tvTailA

def tvMetaB : List Nat :=
  [102, 76, 97, 67, 128, 0, 0, 34, 16, 0, 16, 0, 0, 0, 0, 0, 0, 0, 0, 0, 2,
   240, 0, 0, 32, 0, 0, 0, 0, 0, 0, 0, 0, 0, 0, 0, 0, 0, 0, 0, 0, 0]

def tvFrameB1 : List Nat := [255, 248, 192, 24, 0, 248, 0] ++ List.replicate 17 0

def tvFrameB2 : List Nat := [255, 248, 192, 24, 3, 241, 0] ++ List.replicate 17 0

def tvStreamB : List Nat := tvMetaB ++ tvFrameB1 ++ tvFrameB2

/-- A stream with corrupted magic bytes. -/
def tvStreamBad : List Nat := [0, 0, 0, 0] ++ tvStreamA.drop 4

/-- Fresh playing context in the untimed (file demultiplex) mode. -/
def tvCtx0 : DmxCtx := {is_playing := true}

/-- Playing context with a configured output timescale of 1000. -/
def tvCtxTs : DmxCtx := {is_playing := true, timescale := 1000, opid := true}

/-- Zeroed stand-in for the uninitialized header local. -/
def tvJunk : FLACHeader := ⟨0, 0, 0⟩

/-- The configuration emitted for the A stream. -/
def tvCfgA : CfgOut :=
  { dsi := (tvStreamA.drop 4).take 38
    sampleRate := 44100
    nbChannels := 2
    samplesPerFrame := 4096
    audioBps := 16
    timescaleProp := 44100
    durNum := 8192
    durDen := 44100
    chLayoutProp := none }

/-- Seekable-file context with a two-entry seek index, used against the
seek-resolution claim. -/
def tvCtxSeek : DmxCtx :=
  { is_playing := true
    is_file := true
    initial_play_done := true
    sample_rate := 44100
    indexes := [(100, 1), (200, 2)] }

/-- Initialized context holding a 24-byte residual, used for the forced
flush claim. -/
def tvCtxFlush : DmxCtx :=
  { is_playing := true
    initialized := true
    opid := true
    sample_rate := 44100
    ch_layout := 1
    cts := 7
    buffer := tvFrameA1 }

/-- Initialized context whose established parameters match the A-stream
frames, used for the acceptance-policy claim. -/
def tvCtxSync : DmxCtx :=
  { is_playing := true
    initialized := true
    opid := true
    sample_rate := 44100
    ch_layout := 1 }

/-! ## General lemmas about the bit reader -/

theorem bitAt_lt (d : List Nat) (j : Nat) : bitAt d j < 2 := by
  have : bitAt d j = (byteAt d (j / 8) >>> (7 - j % 8)) % 2 := by
    simp [bitAt, Nat.and_one_is_mod]
  rw [this]
  exact Nat.mod_lt _ (by norm_num)

theorem bitsVal_lt (d : List Nat) (p n : Nat) : bitsVal d p n < 2 ^ n := by
  induction n with
  | zero => simp [bitsVal]
  | succ n ih =>
    rw [bitsVal, List.range_succ, List.foldl_append]
    simp only [List.foldl_cons, List.foldl_nil]
    have hb := bitAt_lt d (p + n)
    have : (List.range n).foldl (fun a i => 2 * a + bitAt d (p + i)) 0 = bitsVal d p n := rfl
    rw [this]
    have := ih
    rw [pow_succ]
    omega

theorem bitsVal_foldl_acc (d : List Nat) (p m n : Nat) :
    ∀ a : Nat, ((List.range n).map (m + ·)).foldl (fun a i => 2 * a + bitAt d (p + i)) a =
      a * 2 ^ n + bitsVal d (p + m) n := by
  induction n with
  | zero => intro a; simp [bitsVal]
  | succ n ih =>
    intro a
    rw [List.range_succ, List.map_append, List.foldl_append]
    simp only [List.map_cons, List.map_nil, List.foldl_cons, List.foldl_nil]
    rw [ih a]
    have h2 : bitsVal d (p + m) (n + 1) =
        bitsVal d (p + m) n * 2 + bitAt d (p + m + n) := by
      rw [bitsVal, List.range_succ, List.foldl_append]
      simp only [List.foldl_cons, List.foldl_nil]
      have : (List.range n).foldl (fun a i => 2 * a + bitAt d (p + m + i)) 0 =
          bitsVal d (p + m) n := rfl
      rw [this]; ring
    have h3 : p + (m + n) = p + m + n := by ring
    rw [h3, h2, pow_succ]
    ring

theorem bitsVal_split (d : List Nat) (p m n : Nat) :
    bitsVal d p (m + n) = bitsVal d p m * 2 ^ n + bitsVal d (p + m) n := by
  rw [bitsVal, List.range_add, List.foldl_append]
  have h1 : (List.range m).foldl (fun a i => 2 * a + bitAt d (p + i)) 0 = bitsVal d p m := rfl
  rw [h1, bitsVal_foldl_acc]

theorem byteAt_lt (d : List Nat) (k : Nat) : byteAt d k < 256 := by
  exact Nat.mod_lt _ (by norm_num)

set_option maxRecDepth 4000 in
theorem byteFold_id : ∀ b : Nat, b < 256 →
    (List.range 8).foldl (fun a i => 2 * a + ((b >>> (7 - i)) &&& 1)) 0 = b := by decide

theorem bitsVal_byte (d : List Nat) (k : Nat) : bitsVal d (8 * k) 8 = byteAt d k := by
  have hcong : bitsVal d (8 * k) 8 =
      (List.range 8).foldl (fun a i => 2 * a + ((byteAt d k >>> (7 - i)) &&& 1)) 0 := by
    rw [bitsVal]
    apply List.foldl_ext
    intro a i hi
    have hi8 : i < 8 := List.mem_range.mp hi
    have hdiv : (8 * k + i) / 8 = k := by omega
    have hmod : (8 * k + i) % 8 = i := by omega
    rw [bitAt, hdiv, hmod]
  rw [hcong, byteFold_id _ (byteAt_lt d k)]

/-! ## Claim C3: timestamp update -/

/-- Claim C3 counterexample: flac_dmx_update_cts advances cts by the
truncated quotient, not the rounded one.  With timescale 1000 and sample
rate 44100 a 4096-sample frame advances cts by 92, while rounding
4096 times 1000 over 44100 (about 92.88) to the nearest integer as the
claim states gives 93. -/
theorem claim_C3_counterexample :
    (flac_dmx_update_cts {timescale := 1000, sample_rate := 44100} 4096).cts = 92 ∧
    specRound (4096 * 1000) 44100 = 93 ∧ (92 : Nat) ≠ 93 := by
  refine ⟨?_, by norm_num [specRound], by norm_num⟩
  show (0 + 4096 * 1000 / 44100) % 2 ^ 64 = 92
  norm_num

/-- Claim C3 (amended): per update, cts increases by the sample count
when no output timescale is configured or the configured timescale equals
the sample rate, and otherwise by the floor of the sample count times the
timescale over the sample rate; the u64 addition is assumed not to wrap. -/
theorem claim_C3_theorem (st : DmxCtx) (nb : Nat)
    (h1 : st.cts + nb < 2 ^ 64)
    (h2 : st.cts + nb * st.timescale / st.sample_rate < 2 ^ 64) :
    ((st.timescale = 0 ∨ st.timescale = st.sample_rate) →
      (flac_dmx_update_cts st nb).cts = st.cts + nb) ∧
    (st.timescale ≠ 0 →
      (flac_dmx_update_cts st nb).cts = st.cts + nb * st.timescale / st.sample_rate) := by
  have h1' : st.cts + nb < 18446744073709551616 := lt_of_lt_of_eq h1 (by norm_num)
  have h2' : st.cts + nb * st.timescale / st.sample_rate < 18446744073709551616 :=
    lt_of_lt_of_eq h2 (by norm_num)
  constructor
  · rintro (h | h)
    · simp [flac_dmx_update_cts, h, Nat.mod_eq_of_lt h1']
    · by_cases hz : st.timescale = 0
      · simp [flac_dmx_update_cts, hz, Nat.mod_eq_of_lt h1']
      · have hsr : st.sample_rate ≠ 0 := h ▸ hz
        simp only [flac_dmx_update_cts, if_pos hz]
        rw [h, Nat.mul_div_cancel _ (Nat.pos_of_ne_zero hsr)]
        exact Nat.mod_eq_of_lt (lt_of_lt_of_eq h1 (by norm_num))
  · intro h
    simp [flac_dmx_update_cts, h, Nat.mod_eq_of_lt h2']

/-- Witness for the amended timestamp claim at concrete inputs, both in
the untimed mode and at a timescale distinct from the sample rate. -/
theorem claim_C3_witness :
    (flac_dmx_update_cts {timescale := 0, sample_rate := 44100, cts := 5} 4096).cts = 5 + 4096 ∧
    (flac_dmx_update_cts {timescale := 1000, sample_rate := 44100, cts := 5} 4096).cts =
      5 + 4096 * 1000 / 44100 := by
  constructor
  · exact (claim_C3_theorem {timescale := 0, sample_rate := 44100, cts := 5} 4096
      (by norm_num) (by norm_num)).1 (Or.inl rfl)
  · exact (claim_C3_theorem {timescale := 1000, sample_rate := 44100, cts := 5} 4096
      (by norm_num) (by norm_num)).2 (by norm_num)

/-! ## Claim C6: seek resolution -/

theorem seekScanAux_mem (t : ℚ) :
    ∀ (l : List (Nat × ℚ)) (prev e : Nat × ℚ),
      seekScanAux t l prev = some e → e = prev ∨ e ∈ l := by
  intro l
  induction l with
  | nil => intro prev e h; simp [seekScanAux] at h
  | cons a rest ih =>
    intro prev e h
    simp only [seekScanAux] at h
    by_cases hc : t < a.2
    · rw [if_pos hc] at h
      injection h with h2
      exact Or.inl h2.symm
    · rw [if_neg hc] at h
      rcases ih a e h with h1 | h1
      · exact Or.inr (h1 ▸ List.mem_cons_self a rest)
      · exact Or.inr (List.mem_cons_of_mem a h1)

theorem seekScanAux_le (t : ℚ) :
    ∀ (l : List (Nat × ℚ)) (prev e : Nat × ℚ),
      prev.2 ≤ t → seekScanAux t l prev = some e → e.2 ≤ t := by
  intro l
  induction l with
  | nil => intro prev e _ h; simp [seekScanAux] at h
  | cons a rest ih =>
    intro prev e hp h
    simp only [seekScanAux] at h
    by_cases hc : t < a.2
    · rw [if_pos hc] at h
      cases h; exact hp
    · rw [if_neg hc] at h
      exact ih a e (le_of_not_lt hc) h

/-- Claim C6 counterexample: the seek index of tvCtxSeek is strictly
increasing in both components, yet on a play request at time 5 (past the
last indexed duration) the handler requests byte position 0 and leaves
cts at 0, while the entry with the greatest duration at most 5 sits at
byte position 200; the claimed resolution and the code diverge. -/
theorem claim_C6_counterexample :
    strictIncIdx tvCtxSeek.indexes ∧
    (flac_dmx_process_event tvCtxSeek (.play 5)).seekTo = some 0 ∧
    (flac_dmx_process_event tvCtxSeek (.play 5)).st.cts = 0 ∧
    greatestLeEntry tvCtxSeek.indexes 5 = some (200, 2) ∧ (0 : Nat) ≠ 200 := by
  refine ⟨?_, ?_, ?_, ?_, by norm_num⟩
  · exact List.chain'_cons.mpr ⟨⟨by norm_num, by norm_num⟩, List.chain'_singleton _⟩
  · simp only [flac_dmx_process_event, tvCtxSeek]
    norm_num [seekScan, seekScanAux]
  · simp only [flac_dmx_process_event, tvCtxSeek]
    norm_num [seekScan, seekScanAux]
  · norm_num [greatestLeEntry, tvCtxSeek, List.filter]

/-- Claim C6 (amended): on a play request at a nonzero time t over a
seekable file, the handler scans the index from its second entry for the
first entry with duration exceeding t and resumes from the preceding
entry, setting cts to that duration scaled by the sample rate and
requesting that byte position upstream; the chosen entry belongs to the
index, and it under-seeks (duration at most t) whenever the first index
entry does not already exceed t.  When no entry beyond the first exceeds
t, the request resumes from byte position 0 with cts unchanged. -/
theorem claim_C6_theorem (st : DmxCtx) (t : ℚ)
    (hf : st.is_file = true) (ht : ¬ t = 0) (hd : st.initial_play_done = true) :
    (∀ e, seekScan st.indexes t = some e →
      (flac_dmx_process_event st (.play t)).st.cts = ratFloorNat (e.2 * (st.sample_rate : ℚ)) ∧
      (flac_dmx_process_event st (.play t)).st.file_pos = e.1 ∧
      (flac_dmx_process_event st (.play t)).seekTo = some e.1 ∧
      e ∈ st.indexes ∧
      ((∀ e0 ∈ st.indexes.head?, e0.2 ≤ t) → e.2 ≤ t)) ∧
    (seekScan st.indexes t = none →
      (flac_dmx_process_event st (.play t)).st.file_pos = 0 ∧
      (flac_dmx_process_event st (.play t)).st.cts = st.cts ∧
      (flac_dmx_process_event st (.play t)).seekTo = some 0) := by
  constructor
  · intro e he
    have hmem : e ∈ st.indexes := by
      cases hidx : st.indexes with
      | nil => rw [hidx] at he; simp [seekScan] at he
      | cons e0 rest =>
        rw [hidx] at he
        simp only [seekScan] at he
        rcases seekScanAux_mem t rest e0 e he with h1 | h1
        · exact h1 ▸ List.mem_cons_self e0 rest
        · exact List.mem_cons_of_mem e0 h1
    have hle : (∀ e0 ∈ st.indexes.head?, e0.2 ≤ t) → e.2 ≤ t := by
      intro h0
      cases hidx : st.indexes with
      | nil => rw [hidx] at he; simp [seekScan] at he
      | cons e0 rest =>
        rw [hidx] at he
        simp only [seekScan] at he
        exact seekScanAux_le t rest e0 e (h0 e0 (by rw [hidx]; rfl)) he
    refine ⟨?_, ?_, ?_, hmem, hle⟩ <;>
      by_cases hp : st.is_playing = false <;>
      simp [flac_dmx_process_event, hp, hf, ht, hd, he]
  · intro he
    refine ⟨?_, ?_, ?_⟩ <;>
      by_cases hp : st.is_playing = false <;>
      simp [flac_dmx_process_event, hp, hf, ht, hd, he]

/-- Witness for the amended seek claim: a request at time three halves
over the two-entry index resolves to the first entry, position 100, cts
44100. -/
theorem claim_C6_witness :
    (flac_dmx_process_event tvCtxSeek (.play (3 / 2))).st.cts = 44100 ∧
    (flac_dmx_process_event tvCtxSeek (.play (3 / 2))).seekTo = some 100 := by
  have h := (claim_C6_theorem tvCtxSeek (3 / 2) rfl (by norm_num) rfl).1 (100, 1)
    (by norm_num [seekScan, seekScanAux, tvCtxSeek])
  refine ⟨?_, h.2.2.1⟩
  rw [h.1]
  show ratFloorNat ((1 : ℚ) * (44100 : Nat)) = 44100
  norm_num [ratFloorNat, Rat.floor_def']
  rfl

/-! ## Claim C9: fatal-error stickiness -/

/-- Claim C9: a process invocation on an instance in the error state
returns the non-compliant-bitstream failure immediately, with no outputs,
no state change and no input consumption, for both packet and
end-of-stream invocations; and the error is entered from the
initialization path when the magic is wrong or no STREAMINFO terminates
the metadata list, dropping all buffered input. -/
theorem claim_C9_theorem :
    (∀ (st : DmxCtx) (junk : FLACHeader) (pckCts : Option Nat) (c : List Nat),
      st.in_error = true →
      flac_dmx_process_pck st junk pckCts c = ⟨st, [], .nonCompliantBitstream, false⟩ ∧
      flac_dmx_process_eos st junk = ⟨st, [], .nonCompliantBitstream, false⟩) ∧
    (∀ (st : DmxCtx) (junk : FLACHeader) (c : List Nat) (q : Nat) (hd : FLACHeader),
      st.in_error = false → st.is_playing = true → st.initialized = false →
      20 < (st.buffer ++ c).length →
      syncScan st (st.buffer ++ c) = .found q hd →
      (metaParse ((st.buffer ++ c).take q) = .badMagic ∨
       metaParse ((st.buffer ++ c).take q) = .noDsi) →
      flac_dmx_process_pck st junk none c =
        ⟨{st with in_error := true, buffer := []}, [], .nonCompliantBitstream, false⟩) := by
  constructor
  · intro st junk pckCts c h
    constructor
    · simp [flac_dmx_process_pck, h]
    · simp [flac_dmx_process_eos, h]
  · intro st junk c q hd he hp hi hlen hscan hmeta
    have hnl : ¬ ((st.buffer ++ c).length ≤ 20) := by omega
    have hnl2 : ¬ (st.buffer.length + c.length ≤ 20) := by
      simp only [List.length_append] at hnl; exact hnl
    rcases hmeta with hm | hm <;>
      simp [flac_dmx_process_pck, he, hp, hi, hnl, hnl2, hscan, hm, drainF,
        pickBoundary, initStep]

/-- Witness for the error-stickiness claim: an instance already in the
error state rejects further input unchanged, and the stream with
corrupted magic drives a fresh instance into the error state with an
emptied reservoir. -/
theorem claim_C9_witness :
    flac_dmx_process_pck {in_error := true} tvJunk none [1, 2] =
      ⟨{in_error := true}, [], .nonCompliantBitstream, false⟩ ∧
    flac_dmx_process_pck tvCtx0 tvJunk none tvStreamBad =
      ⟨{tvCtx0 with in_error := true, buffer := []}, [], .nonCompliantBitstream, false⟩ := by
  constructor
  · exact (claim_C9_theorem.1 {in_error := true} tvJunk none [1, 2] rfl).1
  · exact claim_C9_theorem.2 tvCtx0 tvJunk tvStreamBad 42 ⟨4096, 44100, 1⟩ rfl rfl rfl
      (by decide) (by decide) (Or.inl (by decide))

/-! ## Claim C10: division safety of the timestamp update -/

theorem parseTail_some (data : List Nat) (ch bs sr : Nat) (s : Rd) (h : FLACHeader)
    (hp : parseTail data ch bs sr s = some h) :
    h = ⟨bs, sr, ch⟩ := by
  unfold parseTail at hp
  simp only [readBits] at hp
  split at hp
  · cases hp
  · split at hp
    · cases hp
    · split at hp
      · split at hp
        · cases hp
        · exact (Option.some.injEq _ _ ▸ hp).symm
      · cases hp

theorem parseHead_srCode (data : List Nat) (bs sr ch r0 : Nat) (s : Rd)
    (hp : parseHead data = some (bs, sr, ch, r0, s)) :
    sr = bitsVal data 20 4 ∧ sr ≠ 15 := by
  unfold parseHead at hp
  simp only [readBits] at hp
  split at hp
  · cases hp
  split at hp
  · cases hp
  split at hp
  · cases hp
  split at hp
  · cases hp
  split at hp
  · cases hp
  split at hp
  · cases hp
  split at hp
  · cases hp
  rename_i hsync hbs hsr15 hch hbps hrsv hres
  injection hp with h1
  simp only [Prod.mk.injEq] at h1
  obtain ⟨-, h2, -⟩ := h1
  norm_num at hsr15 h2 ⊢
  exact ⟨h2.symm, fun hc => hsr15 (h2.symm ▸ hc)⟩

theorem parseSampleRate_ne_zero (data : List Nat) (ctxSr srCode : Nat) (s : Rd)
    (hsr : ctxSr ≠ 0) (hlt : srCode < 16) (h15 : srCode ≠ 15)
    (h12 : srCode ≠ 12) (h13 : srCode ≠ 13) (h14 : srCode ≠ 14) :
    (parseSampleRate data ctxSr srCode s).1 ≠ 0 := by
  unfold parseSampleRate
  interval_cases srCode <;>
    simp_all +decide [flac_dmx_samplerates, List.getD]

set_option maxRecDepth 100000 in
/-- Claim C10 counterexample: on the B stream, whose STREAMINFO declares
a 20-bit sample rate of 0 and whose frame headers carry sample-rate code
0 (inherit), frames are emitted with a configured timescale of 1000 while
the established sample rate at the cts update is 0: the division of
flac_dmx_update_cts runs with divisor zero, undefined behavior in the C
source. -/
theorem claim_C10_counterexample :
    (outFrameRecs (runChunks tvCtxTs tvJunk [tvStreamB]).outs).map
        (fun f => (f.srAt, f.tsAt)) = [(0, 1000), (0, 1000)] ∧
    metaParse (tvStreamB.take 42) = .ok ⟨0, 2, 16, 4096, 8192, 0⟩ 42 ∧
    byteAt tvStreamB 44 % 16 = 0 ∧ (1000 : Nat) ≠ 0 := by
  exact ⟨by decide, by decide, by decide, by norm_num⟩

/-- Claim C10 (amended): a successfully decoded frame header yields a
nonzero sample rate whenever the established rate is nonzero and the
header does not use one of the raw-rate escape codes 12 to 14, so the
divisor of the cts update stays nonzero along such streams; with an
established rate of 0 inherited through code 0 the divisor is 0 (see the
counterexample). -/
theorem claim_C10_theorem (ctxSr : Nat) (data : List Nat) (h : FLACHeader)
    (hsr : ctxSr ≠ 0) (hp : flac_parse_header ctxSr data = some h)
    (h12 : bitsVal data 20 4 ≠ 12) (h13 : bitsVal data 20 4 ≠ 13)
    (h14 : bitsVal data 20 4 ≠ 14) :
    h.sample_rate ≠ 0 := by
  unfold flac_parse_header at hp
  split at hp
  · cases hp
  split at hp
  · cases hp
  next bsCode srCode chLay res0 s hhead =>
  split at hp
  · cases hp
  next s2 hvar =>
  have hfacts := parseHead_srCode data bsCode srCode chLay res0 s hhead
  have hres := parseTail_some _ _ _ _ _ _ hp
  rw [hres]
  exact parseSampleRate_ne_zero data ctxSr srCode _ hsr
    (hfacts.1 ▸ bitsVal_lt data 20 4) hfacts.2
    (hfacts.1 ▸ h12) (hfacts.1 ▸ h13) (hfacts.1 ▸ h14)

/-- Witness for the amended division-safety claim at a concrete frame
header with an established rate of 44100 and rate code 9. -/
theorem claim_C10_witness :
    flac_parse_header 44100 tvFrameA1 = some ⟨4096, 44100, 1⟩ ∧
    (FLACHeader.mk 4096 44100 1).sample_rate ≠ 0 :=
  ⟨by decide,
   claim_C10_theorem 44100 tvFrameA1 ⟨4096, 44100, 1⟩ (by norm_num) (by decide)
     (by decide) (by decide) (by decide)⟩

/-! ## Claim C4: forced flush at end of input -/

theorem drainF_nil (fuel : Nat) (st : DmxCtx) (hdr : FLACHeader) (cl : Option Nat)
    (pp : Nat) (fl : Bool) :
    drainF fuel st [] hdr cl pp fl = ⟨st, [], [], .ok, false⟩ := by
  cases fuel <;> simp [drainF]

theorem outFrames_append (a b : List Output) :
    outFrames (a ++ b) = outFrames a ++ outFrames b := by
  simp [outFrames]

theorem emitProps_in_seek (st : DmxCtx) (hdr : FLACHeader) :
    (emitProps st hdr).1.in_seek = st.in_seek := by
  by_cases h1 : hdr.sample_rate = st.sample_rate <;>
    by_cases h2 : hdr.channels = st.ch_layout <;>
    by_cases h3 : 1 < hdr.channels <;>
    simp [emitProps, h1, h2, h3]

theorem emitProps_cts (st : DmxCtx) (hdr : FLACHeader) :
    (emitProps st hdr).1.cts = st.cts := by
  by_cases h1 : hdr.sample_rate = st.sample_rate <;>
    by_cases h2 : hdr.channels = st.ch_layout <;>
    by_cases h3 : 1 < hdr.channels <;>
    simp [emitProps, h1, h2, h3]

theorem emitProps_is_playing (st : DmxCtx) (hdr : FLACHeader) :
    (emitProps st hdr).1.is_playing = st.is_playing := by
  by_cases h1 : hdr.sample_rate = st.sample_rate <;>
    by_cases h2 : hdr.channels = st.ch_layout <;>
    by_cases h3 : 1 < hdr.channels <;>
    simp [emitProps, h1, h2, h3]

theorem emitProps_outFrames (st : DmxCtx) (hdr : FLACHeader) :
    outFrames (emitProps st hdr).2 = [] := by
  by_cases h1 : hdr.sample_rate = st.sample_rate <;>
    by_cases h2 : hdr.channels = st.ch_layout <;>
    by_cases h3 : 1 < hdr.channels <;>
    simp [emitProps, h1, h2, h3, outFrames]

theorem seekCheck_noseek (st : DmxCtx) (nb : Nat) (h : st.in_seek = false) :
    seekCheck st nb = st := by
  simp [seekCheck, h]

theorem ctsHandoff_none (st : DmxCtx) (pp : Nat) : ctsHandoff st none pp = (st, none) := by
  simp [ctsHandoff]

theorem frameOuts_noseek (st : DmxCtx) (bytes : List Nat) (nb : Nat)
    (h : st.in_seek = false) :
    outFrames (frameOuts st bytes nb) = [(bytes, st.cts)] := by
  simp [frameOuts, h, outFrames]

theorem update_cts_is_playing (st : DmxCtx) (nb : Nat) :
    (flac_dmx_update_cts st nb).is_playing = st.is_playing := by
  unfold flac_dmx_update_cts; split <;> rfl

theorem emitStep_noResync (st : DmxCtx) (buf : List Nat) (nf : Nat)
    (hdr : FLACHeader) (pp : Nat)
    (h5 : ¬(byteAt buf 0 ≠ 0xFF ∧ byteAt buf 1 &&& 0xFC ≠ 0xF8))
    (h6 : st.in_seek = false) :
    outFrames (emitStep st buf nf hdr none pp).2.1 = [(buf.take nf, st.cts)] ∧
    (emitStep st buf nf hdr none pp).1.is_playing = st.is_playing ∧
    (emitStep st buf nf hdr none pp).2.2.2.1 = none := by
  unfold emitStep
  rw [if_neg h5]
  have h6s : ({st with is_sync := true} : DmxCtx).in_seek = false := h6
  simp only []
  rw [seekCheck_noseek _ _ (by rw [emitProps_in_seek]; exact h6s)]
  rw [ctsHandoff_none]
  simp only [outFrames_append, emitProps_outFrames, List.nil_append,
    update_cts_is_playing, emitProps_is_playing]
  refine ⟨?_, trivial, trivial⟩
  rw [frameOuts_noseek _ _ _ (by rw [emitProps_in_seek]; exact h6s), emitProps_cts]

theorem drainF_flush_emit (fuel : Nat) (st : DmxCtx) (buf : List Nat)
    (hdr : FLACHeader) (pp : Nat)
    (h3 : st.initialized = true) (h4 : 20 < buf.length)
    (h5 : ¬(byteAt buf 0 ≠ 0xFF ∧ byteAt buf 1 &&& 0xFC ≠ 0xF8))
    (h6 : st.in_seek = false) :
    outFrames (drainF (fuel + 1) st buf hdr none pp true).outs = [(buf, st.cts)] ∧
    (drainF (fuel + 1) st buf hdr none pp true).ret = .ok ∧
    (drainF (fuel + 1) st buf hdr none pp true).leftover = [] ∧
    (drainF (fuel + 1) st buf hdr none pp true).st.is_playing = st.is_playing := by
  have hnl : ¬ (buf.length ≤ 20) := by omega
  obtain ⟨he1, he2, he3⟩ := emitStep_noResync st buf buf.length hdr pp h5 h6
  simp only [drainF, if_neg hnl, pickBoundary, if_true, ite_true, h3,
    Bool.true_eq_false, if_false, ite_false, List.drop_length]
  rw [he3, drainF_nil]
  rw [List.take_length] at he1
  simp [he1, he2]

set_option maxRecDepth 100000 in
/-- Claim C4 counterexample: after feeding the A stream in one chunk the
reservoir retains the 18-byte truncated final frame, end-of-input is then
signaled with no further sync candidate, and the residual is discarded:
the end-of-stream invocation emits no frame at all, against the claim
that a residual of any nonzero length is emitted as one final frame. -/
theorem claim_C4_counterexample :
    (flac_dmx_process_pck tvCtx0 tvJunk none tvStreamA).st.buffer = tvTailA ∧
    tvTailA.length = 18 ∧ tvTailA ≠ [] ∧
    outFrames (flac_dmx_process_eos (flac_dmx_process_pck tvCtx0 tvJunk none tvStreamA).st
      tvJunk).outs = [] ∧
    (flac_dmx_process_eos (flac_dmx_process_pck tvCtx0 tvJunk none tvStreamA).st tvJunk).ret =
      .eos := by
  exact ⟨by decide, by decide, by decide, by decide, by decide⟩

/-- Claim C4 (amended): at end of input with residual bytes, no further
sync candidate, and a residual longer than 20 bytes that begins at a
frame-start-shaped position, the entire residual is emitted as one final
forced frame carrying the current cts, and the stream then closes;
residuals of 1 to 20 bytes are silently discarded instead (see the
counterexample). -/
theorem claim_C4_theorem (st : DmxCtx) (junk : FLACHeader)
    (h1 : st.in_error = false) (h2 : st.is_playing = true) (h3 : st.initialized = true)
    (h4 : 20 < st.buffer.length)
    (h5 : ¬(byteAt st.buffer 0 ≠ 0xFF ∧ byteAt st.buffer 1 &&& 0xFC ≠ 0xF8))
    (h6 : st.in_seek = false) :
    outFrames (flac_dmx_process_eos st junk).outs = [(st.buffer, st.cts)] ∧
    (flac_dmx_process_eos st junk).ret = .eos ∧
    (flac_dmx_process_eos st junk).st.buffer = [] := by
  have hne : ¬ st.buffer.isEmpty := by
    cases hb : st.buffer with
    | nil => rw [hb] at h4; simp at h4
    | cons a l => simp [List.isEmpty]
  obtain ⟨hf, hr, hl, hpl⟩ :=
    drainF_flush_emit st.buffer.length st st.buffer junk st.buffer.length h3 h4 h5 h6
  simp only [flac_dmx_process_eos, h1, h2, hne, Bool.false_eq_true, Bool.true_eq_false,
    and_false, if_false, ite_false, Bool.not_eq_true, if_neg]
  rw [hr]
  simp only [hpl, h2, Bool.true_eq_false, and_false, if_false, ite_false]
  refine ⟨?_, by simp, by simp⟩
  rw [outFrames_append, hf]
  simp [outFrames]

/-- Witness for the amended forced-flush claim: an initialized context
holding a 24-byte frame as residual emits it whole at cts 7 and closes
the stream. -/
theorem claim_C4_witness :
    outFrames (flac_dmx_process_eos tvCtxFlush tvJunk).outs = [(tvCtxFlush.buffer, 7)] ∧
    (flac_dmx_process_eos tvCtxFlush tvJunk).ret = .eos := by
  have h := claim_C4_theorem tvCtxFlush tvJunk rfl rfl rfl (by decide) (by decide) rfl
  exact ⟨h.1, h.2.1⟩

/-! ## Claim C7: configuration emission -/

theorem outConfigs_append (a b : List Output) :
    outConfigs (a ++ b) = outConfigs a ++ outConfigs b := by
  simp [outConfigs]

theorem emitProps_outConfigs (st : DmxCtx) (hdr : FLACHeader) :
    outConfigs (emitProps st hdr).2 = [] := by
  by_cases h1 : hdr.sample_rate = st.sample_rate <;>
    by_cases h2 : hdr.channels = st.ch_layout <;>
    by_cases h3 : 1 < hdr.channels <;>
    simp [emitProps, h1, h2, h3, outConfigs]

theorem frameOuts_outConfigs (st : DmxCtx) (bytes : List Nat) (nb : Nat) :
    outConfigs (frameOuts st bytes nb) = [] := by
  unfold frameOuts; split <;> simp [outConfigs]

theorem emitStep_outConfigs (st : DmxCtx) (buf : List Nat) (nf : Nat)
    (hdr : FLACHeader) (cl : Option Nat) (pp : Nat) :
    outConfigs (emitStep st buf nf hdr cl pp).2.1 = [] := by
  unfold emitStep
  split
  · simp [outConfigs]
  · simp only [outConfigs_append, emitProps_outConfigs, frameOuts_outConfigs,
      List.append_nil, List.nil_append]

theorem emitProps_initialized (st : DmxCtx) (hdr : FLACHeader) :
    (emitProps st hdr).1.initialized = st.initialized := by
  by_cases h1 : hdr.sample_rate = st.sample_rate <;>
    by_cases h2 : hdr.channels = st.ch_layout <;>
    simp [emitProps, h1, h2]

theorem seekCheck_initialized (st : DmxCtx) (nb : Nat) :
    (seekCheck st nb).initialized = st.initialized := by
  unfold seekCheck; repeat' split
  all_goals rfl

theorem ctsHandoff_initialized (st : DmxCtx) (cl : Option Nat) (pp : Nat) :
    (ctsHandoff st cl pp).1.initialized = st.initialized := by
  unfold ctsHandoff; split <;> rfl

theorem update_cts_initialized (st : DmxCtx) (nb : Nat) :
    (flac_dmx_update_cts st nb).initialized = st.initialized := by
  unfold flac_dmx_update_cts; split <;> rfl

theorem emitStep_initialized (st : DmxCtx) (buf : List Nat) (nf : Nat)
    (hdr : FLACHeader) (cl : Option Nat) (pp : Nat) :
    (emitStep st buf nf hdr cl pp).1.initialized = st.initialized := by
  unfold emitStep
  split
  · rfl
  · simp only [update_cts_initialized, ctsHandoff_initialized, seekCheck_initialized,
      emitProps_initialized]

theorem drainF_init_no_config (fuel : Nat) :
    ∀ (st : DmxCtx) (buf : List Nat) (hdr : FLACHeader) (cl : Option Nat) (pp : Nat)
      (fl : Bool), st.initialized = true →
      outConfigs (drainF fuel st buf hdr cl pp fl).outs = [] := by
  induction fuel with
  | zero => intro st buf hdr cl pp fl _; simp [drainF, outConfigs]
  | succ n ih =>
    intro st buf hdr cl pp fl hi
    simp only [drainF]
    split
    · simp [outConfigs]
    · cases hpb : pickBoundary st buf fl hdr with
      | none => simp [outConfigs]
      | some v =>
        obtain ⟨nf, hdr2⟩ := v
        simp only [hi, Bool.true_eq_false, if_false, ite_false]
        rw [outConfigs_append, emitStep_outConfigs,
          ih _ _ _ _ _ _ (by rw [emitStep_initialized]; exact hi)]
        rfl


theorem check_pid_is_playing (st : DmxCtx) (dsi : List Nat) :
    (flac_dmx_check_pid st dsi).1.is_playing = st.is_playing := by
  by_cases h : st.dsi_crc = gf_crc_32 dsi ∧ st.copy_props = false <;>
    simp [flac_dmx_check_pid, h]

theorem init_config_emission (st : DmxCtx) (junk hd : FLACHeader) (c : List Nat) (q : Nat)
    (si : SInfo) (dsiEnd : Nat)
    (he : st.in_error = false) (hp : st.is_playing = true) (hi : st.initialized = false)
    (hlen : 20 < (st.buffer ++ c).length)
    (hscan : syncScan st (st.buffer ++ c) = .found q hd)
    (hmeta : metaParse ((st.buffer ++ c).take q) = .ok si dsiEnd) :
    outConfigs (flac_dmx_process_pck st junk none c).outs =
      (match (flac_dmx_check_pid
          {st with sample_rate := si.sr, nb_channels := si.nch, bits_per_sample := si.bps,
                   block_size := si.blk, durNum := si.durNum, durDen := si.durDen,
                   ch_layout := hd.channels}
          (((st.buffer ++ c).drop 4).take (dsiEnd - 4))).2 with
       | some cfg => [cfg]
       | none => []) := by
  have hnl : ¬ ((st.buffer ++ c).length ≤ 20) := by omega
  have hnl2 : ¬ (st.buffer.length + c.length ≤ 20) := by
    simp only [List.length_append] at hnl; exact hnl
  cases hc : (flac_dmx_check_pid
      {st with sample_rate := si.sr, nb_channels := si.nch, bits_per_sample := si.bps,
               block_size := si.blk, durNum := si.durNum, durDen := si.durDen,
               ch_layout := hd.channels}
      (((st.buffer ++ c).drop 4).take (dsiEnd - 4))).2 with
  | none =>
    simp only [hp, he, hi] at hc
    simp only [flac_dmx_process_pck, he, Bool.false_eq_true, if_false, ite_false, hp,
      ite_self, Option.isSome_none, Bool.true_eq_false, and_false, Option.isNone_none,
      if_true, ite_true, drainF, if_neg hnl, if_neg hnl2, pickBoundary, hscan, hi,
      initStep, hmeta, Option.getD_none]
    simp only [hc, check_pid_is_playing, Bool.true_eq_false, if_false, ite_false,
      List.nil_append]
    exact drainF_init_no_config _ _ _ _ _ _ _ (by rfl)
  | some cfg =>
    simp only [hp, he, hi] at hc
    simp only [flac_dmx_process_pck, he, Bool.false_eq_true, if_false, ite_false, hp,
      ite_self, Option.isSome_none, Bool.true_eq_false, and_false, Option.isNone_none,
      if_true, ite_true, drainF, if_neg hnl, if_neg hnl2, pickBoundary, hscan, hi,
      initStep, hmeta, Option.getD_none]
    simp only [hc, check_pid_is_playing, Bool.true_eq_false, if_false, ite_false]
    rw [outConfigs_append, drainF_init_no_config _ _ _ _ _ _ _ (by rfl)]
    simp [outConfigs]


set_option maxRecDepth 100000 in
/-- Claim C7 counterexample: the decoder-config blob emitted for the A
stream consists of the raw bytes from just after the 4-byte magic through
the end of STREAMINFO (38 bytes starting at offset 4), not the bytes from
the magic itself (the first 42 bytes), contrary to the claim. -/
theorem claim_C7_counterexample :
    (runChunks tvCtx0 tvJunk [tvStreamA]).outs.head? = some (.config tvCfgA) ∧
    tvCfgA.dsi = (tvStreamA.drop 4).take 38 ∧
    (tvStreamA.drop 4).take 38 ≠ tvStreamA.take 42 := by
  exact ⟨by decide, by decide, by decide⟩

/-- Claim C7 (amended): flac_dmx_check_pid reemits the configuration
exactly when the checksum of the decoder-config bytes differs from the
stored one or a reconfiguration is pending, storing the new checksum; at
stream initialization the blob handed to it consists of the raw bytes
from just after the magic through the end of STREAMINFO, and after
initialization no further configuration is emitted by the loop. -/
theorem claim_C7_theorem :
    (∀ (st : DmxCtx) (dsi : List Nat),
      (st.dsi_crc = gf_crc_32 dsi ∧ st.copy_props = false →
        flac_dmx_check_pid st dsi = ({st with opid := true}, none)) ∧
      (¬(st.dsi_crc = gf_crc_32 dsi ∧ st.copy_props = false) →
        ∃ cfg, (flac_dmx_check_pid st dsi).2 = some cfg ∧ cfg.dsi = dsi ∧
          (flac_dmx_check_pid st dsi).1.dsi_crc = gf_crc_32 dsi ∧
          (flac_dmx_check_pid st dsi).1.copy_props = false)) ∧
    (∀ (st : DmxCtx) (junk hd : FLACHeader) (c : List Nat) (q : Nat)
        (si : SInfo) (dsiEnd : Nat),
      st.in_error = false → st.is_playing = true → st.initialized = false →
      20 < (st.buffer ++ c).length →
      syncScan st (st.buffer ++ c) = .found q hd →
      metaParse ((st.buffer ++ c).take q) = .ok si dsiEnd →
      outConfigs (flac_dmx_process_pck st junk none c).outs =
        (match (flac_dmx_check_pid
            {st with sample_rate := si.sr, nb_channels := si.nch, bits_per_sample := si.bps,
                     block_size := si.blk, durNum := si.durNum, durDen := si.durDen,
                     ch_layout := hd.channels}
            (((st.buffer ++ c).drop 4).take (dsiEnd - 4))).2 with
         | some cfg => [cfg]
         | none => [])) ∧
    (∀ (fuel : Nat) (st : DmxCtx) (buf : List Nat) (hdr : FLACHeader)
        (cl : Option Nat) (pp : Nat) (fl : Bool), st.initialized = true →
      outConfigs (drainF fuel st buf hdr cl pp fl).outs = []) := by
  refine ⟨?_, ?_, fun fuel => drainF_init_no_config fuel⟩
  · intro st dsi
    constructor
    · rintro ⟨h1, h2⟩
      simp [flac_dmx_check_pid, h1, h2]
    · intro h
      have h2 : ¬ (({st with opid := true} : DmxCtx).dsi_crc = gf_crc_32 dsi ∧
          ({st with opid := true} : DmxCtx).copy_props = false) := by simpa using h
      simp only [flac_dmx_check_pid]
      rw [if_neg h2]
      exact ⟨_, rfl, rfl, rfl, rfl⟩
  · exact init_config_emission

set_option maxRecDepth 100000 in
/-- Witness for the amended configuration claim: on the A stream the
initialization emits exactly one configuration, the expected one. -/
theorem claim_C7_witness :
    outConfigs (flac_dmx_process_pck tvCtx0 tvJunk none tvStreamA).outs = [tvCfgA] := by
  have h := claim_C7_theorem.2.1 tvCtx0 tvJunk ⟨4096, 44100, 1⟩ tvStreamA 42
    ⟨44100, 2, 16, 4096, 8192, 44100⟩ 42 rfl rfl rfl (by decide) (by decide) (by decide)
  rw [h]
  decide


theorem parseBlockSize_le (data : List Nat) (bsCode : Nat) (s : Rd) :
    (parseBlockSize data bsCode s).1 ≤ 65536 := by
  unfold parseBlockSize
  split
  · have := bitsVal_lt data s.pos 8
    simp only [readBits]
    omega
  · split
    · have := bitsVal_lt data s.pos 16
      simp only [readBits]
      omega
    · rcases Nat.lt_or_ge bsCode 16 with h | h
      · interval_cases bsCode <;> simp [flac_dmx_block_sizes, List.getD]
      · rw [List.getD_eq_default]
        · omega
        · simpa [flac_dmx_block_sizes] using h

theorem flac_parse_header_block_size_le (ctxSr : Nat) (data : List Nat) (h : FLACHeader)
    (hp : flac_parse_header ctxSr data = some h) : h.block_size ≤ 65536 := by
  unfold flac_parse_header at hp
  split at hp
  · cases hp
  split at hp
  · cases hp
  next bsCode srCode chLay res0 s hhead =>
  split at hp
  · cases hp
  next s2 hvar =>
  have hres := parseTail_some _ _ _ _ _ _ hp
  rw [hres]
  exact parseBlockSize_le data bsCode s2

theorem emitProps_timescale (st : DmxCtx) (hdr : FLACHeader) :
    (emitProps st hdr).1.timescale = st.timescale := by
  by_cases h1 : hdr.sample_rate = st.sample_rate <;>
    by_cases h2 : hdr.channels = st.ch_layout <;>
    simp [emitProps, h1, h2]

theorem ctsHandoff_ts0 (st : DmxCtx) (cl : Option Nat) (pp : Nat)
    (h : st.timescale = 0) : ctsHandoff st cl pp = (st, cl) := by
  simp [ctsHandoff, h]

theorem update_cts_ts0 (st : DmxCtx) (nb : Nat) (h : st.timescale = 0) :
    (flac_dmx_update_cts st nb).cts = (st.cts + nb) % 2 ^ 64 ∧
    (flac_dmx_update_cts st nb).timescale = 0 ∧
    (flac_dmx_update_cts st nb).in_seek = st.in_seek := by
  simp [flac_dmx_update_cts, h]

theorem emitStep_c8 (st : DmxCtx) (buf : List Nat) (nf : Nat) (hdr : FLACHeader)
    (cl : Option Nat) (pp : Nat) (M : Nat)
    (hts : st.timescale = 0) (hseek : st.in_seek = false)
    (hM : 65536 ≤ M) (hhdr : hdr.block_size ≤ M)
    (hnw : st.cts + M < 2 ^ 64) :
    st.cts ≤ (emitStep st buf nf hdr cl pp).1.cts ∧
    (emitStep st buf nf hdr cl pp).1.cts ≤ st.cts + M ∧
    (emitStep st buf nf hdr cl pp).1.timescale = 0 ∧
    (emitStep st buf nf hdr cl pp).1.in_seek = false ∧
    (∀ p ∈ outFrames (emitStep st buf nf hdr cl pp).2.1, p.2 = st.cts) ∧
    (emitStep st buf nf hdr cl pp).2.2.1.block_size ≤ M := by
  unfold emitStep
  split
  · exact ⟨le_refl st.cts, Nat.le_add_right st.cts M, hts, hseek, by simp [outFrames], hhdr⟩
  · have h6s : ({st with is_sync := true} : DmxCtx).in_seek = false := hseek
    simp only []
    rw [seekCheck_noseek _ _ (by rw [emitProps_in_seek]; exact h6s)]
    rw [ctsHandoff_ts0 _ _ _ (by rw [emitProps_timescale]; exact hts)]
    set hdr2 := (flac_parse_header
        ({st with is_sync := true} : DmxCtx).sample_rate (buf.take nf)).getD hdr with hh2
    have hnb : hdr2.block_size ≤ M := by
      rw [hh2]
      cases hpr : flac_parse_header ({st with is_sync := true} : DmxCtx).sample_rate
          (buf.take nf) with
      | none => simpa using hhdr
      | some hh =>
        simp only [Option.getD_some]
        exact le_trans (flac_parse_header_block_size_le _ _ _ hpr) hM
    obtain ⟨hc1, hc2, hc3⟩ :=
      update_cts_ts0 (emitProps {st with is_sync := true} hdr2).1 hdr2.block_size
        (by rw [emitProps_timescale]; exact hts)
    have hcts : (emitProps {st with is_sync := true} hdr2).1.cts = st.cts :=
      emitProps_cts _ _
    refine ⟨?_, ?_, hc2, ?_, ?_, hnb⟩
    · rw [hc1, hcts, Nat.mod_eq_of_lt (by omega)]; omega
    · rw [hc1, hcts, Nat.mod_eq_of_lt (by omega)]; omega
    · rw [hc3, emitProps_in_seek]; exact h6s
    · intro p hpmem
      rw [outFrames_append, emitProps_outFrames, List.nil_append] at hpmem
      rw [frameOuts_noseek _ _ _ (by rw [emitProps_in_seek]; exact h6s), emitProps_cts]
        at hpmem
      rw [List.mem_singleton.mp hpmem]


theorem syncScanAux_found_parse (st : DmxCtx) (buf : List Nat) :
    ∀ (t : List Nat) (i q : Nat) (h : FLACHeader),
      syncScanAux st buf t i = .found q h →
      flac_parse_header st.sample_rate (buf.drop q) = some h ∧ i ≤ q := by
  intro t
  induction t with
  | nil => intro i q h hs; simp [syncScanAux] at hs
  | cons b rest ih =>
    intro i q h hs
    unfold syncScanAux at hs
    split at hs
    · split at hs
      · cases hs
      · split at hs
        · split at hs
          · split at hs
            · cases hs
              exact ⟨by assumption, le_refl _⟩
            · split at hs
              · cases hs
                exact ⟨by assumption, le_refl _⟩
              · split at hs
                · cases hs
                  exact ⟨by assumption, le_refl _⟩
                · obtain ⟨hp, hq⟩ := ih _ _ _ hs
                  exact ⟨hp, by omega⟩
          · obtain ⟨hp, hq⟩ := ih _ _ _ hs
            exact ⟨hp, by omega⟩
        · obtain ⟨hp, hq⟩ := ih _ _ _ hs
          exact ⟨hp, by omega⟩
    · obtain ⟨hp, hq⟩ := ih _ _ _ hs
      exact ⟨hp, by omega⟩

theorem syncScan_found_parse (st : DmxCtx) (buf : List Nat) (q : Nat) (h : FLACHeader)
    (hs : syncScan st buf = .found q h) :
    flac_parse_header st.sample_rate (buf.drop q) = some h ∧ 2 ≤ q :=
  syncScanAux_found_parse st buf (buf.drop 2) 2 q h hs

theorem pickBoundary_found (st : DmxCtx) (buf : List Nat) (fl : Bool) (hdr : FLACHeader)
    (nf : Nat) (h2 : FLACHeader) (M : Nat)
    (hM : 65536 ≤ M) (hhdr : hdr.block_size ≤ M)
    (hpb : pickBoundary st buf fl hdr = some (nf, h2)) :
    h2.block_size ≤ M ∧ 1 ≤ nf ∨ (fl = true ∧ nf = buf.length ∧ h2 = hdr) := by
  unfold pickBoundary at hpb
  split at hpb
  · right
    simp only [Option.some.injEq, Prod.mk.injEq] at hpb
    exact ⟨by assumption, hpb.1.symm, hpb.2.symm⟩
  · left
    cases hsc : syncScan st buf with
    | needData => rw [hsc] at hpb; cases hpb
    | found q hh =>
      rw [hsc] at hpb
      simp only [Option.some.injEq, Prod.mk.injEq] at hpb
      obtain ⟨rfl, rfl⟩ := hpb
      obtain ⟨hp, hq⟩ := syncScan_found_parse st buf q hh hsc
      exact ⟨le_trans (flac_parse_header_block_size_le _ _ _ hp) hM, by omega⟩


theorem check_pid_fields (st : DmxCtx) (dsi : List Nat) :
    (flac_dmx_check_pid st dsi).1.cts = st.cts ∧
    (flac_dmx_check_pid st dsi).1.timescale = st.timescale ∧
    (flac_dmx_check_pid st dsi).1.in_seek = st.in_seek := by
  by_cases h : st.dsi_crc = gf_crc_32 dsi ∧ st.copy_props = false <;>
    simp [flac_dmx_check_pid, h]

theorem initStep_c8 (st : DmxCtx) (buf : List Nat) (nf : Nat) (hdr : FLACHeader)
    (st2 : DmxCtx) (outs : List Output)
    (h : initStep st buf nf hdr = some (st2, outs)) :
    st2.cts = st.cts ∧ st2.timescale = st.timescale ∧ st2.in_seek = st.in_seek ∧
    outFrames outs = [] := by
  unfold initStep at h
  split at h
  · cases h
  · cases h
  next si dsiEnd hm =>
    simp only [Option.some.injEq, Prod.mk.injEq] at h
    obtain ⟨h1, h2⟩ := h
    subst h1
    subst h2
    obtain ⟨hc, ht, hs⟩ := check_pid_fields
      {st with sample_rate := si.sr, nb_channels := si.nch,
               bits_per_sample := si.bps, block_size := si.blk,
               durNum := si.durNum, durDen := si.durDen,
               ch_layout := hdr.channels} ((buf.drop 4).take (dsiEnd - 4))
    refine ⟨hc, ht, hs, ?_⟩
    cases hpc : (flac_dmx_check_pid
      {st with sample_rate := si.sr, nb_channels := si.nch,
               bits_per_sample := si.bps, block_size := si.blk,
               durNum := si.durNum, durDen := si.durDen,
               ch_layout := hdr.channels} ((buf.drop 4).take (dsiEnd - 4))).2 <;>
      simp [hpc, outFrames]

theorem drainF_c8 (M : Nat) (hM : 65536 ≤ M) :
    ∀ (fuel : Nat) (st : DmxCtx) (buf : List Nat) (hdr : FLACHeader)
      (cl : Option Nat) (pp : Nat) (fl : Bool),
      st.timescale = 0 → st.in_seek = false → hdr.block_size ≤ M →
      st.cts + buf.length * M < 2 ^ 64 →
      st.cts ≤ (drainF fuel st buf hdr cl pp fl).st.cts ∧
      (drainF fuel st buf hdr cl pp fl).st.cts +
        (drainF fuel st buf hdr cl pp fl).leftover.length * M ≤
        st.cts + buf.length * M ∧
      (drainF fuel st buf hdr cl pp fl).st.timescale = 0 ∧
      (drainF fuel st buf hdr cl pp fl).st.in_seek = false ∧
      (∀ p ∈ outFrames (drainF fuel st buf hdr cl pp fl).outs,
        st.cts ≤ p.2 ∧ p.2 ≤ (drainF fuel st buf hdr cl pp fl).st.cts) ∧
      ((outFrames (drainF fuel st buf hdr cl pp fl).outs).map Prod.snd).Pairwise
        (fun a b => a ≤ b) := by
  intro fuel
  induction fuel with
  | zero =>
    intro st buf hdr cl pp fl hts hseek hhdr hnw
    simp only [drainF]
    exact ⟨le_refl _, le_refl _, hts, hseek, by simp [outFrames], by simp [outFrames]⟩
  | succ fuel ih =>
    intro st buf hdr cl pp fl hts hseek hhdr hnw
    by_cases hlen : buf.length ≤ 20
    · simp only [drainF, if_pos hlen]
      exact ⟨le_refl _, le_refl _, hts, hseek, by simp [outFrames], by simp [outFrames]⟩
    · have hbl : 1 ≤ buf.length := by omega
      cases hpb : pickBoundary st buf fl hdr with
      | none =>
        simp only [drainF, if_neg hlen, hpb]
        exact ⟨le_refl _, le_refl _, hts, hseek, by simp [outFrames], by simp [outFrames]⟩
      | some v =>
        obtain ⟨nf, h2⟩ := v
        have hpf := pickBoundary_found st buf fl hdr nf h2 M hM hhdr hpb
        have hh2 : h2.block_size ≤ M := by
          rcases hpf with ⟨hb, _⟩ | ⟨_, _, he⟩
          · exact hb
          · rw [he]; exact hhdr
        by_cases hinit : st.initialized = false
        · cases hini : initStep st buf nf h2 with
          | none =>
            simp only [drainF, if_neg hlen, hpb, if_pos hinit, hini]
            refine ⟨le_refl _, ?_, hts, hseek, by simp [outFrames], by simp [outFrames]⟩
            simp only [List.length_nil, Nat.zero_mul, Nat.add_zero]
            exact Nat.le_add_right _ _
          | some w =>
            obtain ⟨stI, outsI⟩ := w
            obtain ⟨hIc, hIt, hIs, hIf⟩ := initStep_c8 st buf nf h2 stI outsI hini
            have hdlen : (buf.drop nf).length * M ≤ buf.length * M :=
              Nat.mul_le_mul_right M (by simp [List.length_drop])
            by_cases hplay : stI.is_playing = false
            · simp only [drainF, if_neg hlen, hpb, if_pos hinit, hini, if_pos hplay]
              refine ⟨le_of_eq hIc.symm, ?_, hIt.trans hts, hIs.trans hseek, ?_, ?_⟩
              · rw [hIc]; exact Nat.add_le_add_left hdlen _
              · intro p hp
                rw [hIf] at hp
                cases hp
              · rw [hIf]
                simp
            · simp only [drainF, if_neg hlen, hpb, if_pos hinit, hini, if_neg hplay]
              have hnw2 : stI.cts + (buf.drop nf).length * M < 2 ^ 64 := by
                rw [hIc]
                exact lt_of_le_of_lt (Nat.add_le_add_left hdlen _) hnw
              obtain ⟨r1, r2, r3, r4, r5, r6⟩ :=
                ih stI (buf.drop nf) h2 cl pp fl (hIt.trans hts) (hIs.trans hseek) hh2 hnw2
              refine ⟨?_, ?_, r3, r4, ?_, ?_⟩
              · rw [hIc] at r1; exact r1
              · rw [hIc] at r2
                exact r2.trans (Nat.add_le_add_left hdlen _)
              · intro p hp
                rw [outFrames_append, hIf, List.nil_append] at hp
                have := r5 p hp
                rw [hIc] at this
                exact this
              · rw [outFrames_append, hIf, List.nil_append]
                exact r6
        · obtain ⟨he1, he2, he3, he4, he5, he6⟩ :=
            emitStep_c8 st buf nf h2 cl pp M hts hseek hM hh2
              (lt_of_le_of_lt (Nat.add_le_add_left (Nat.le_mul_of_pos_left M hbl) _) hnw)
          have hkey : (emitStep st buf nf h2 cl pp).1.cts +
              (buf.drop nf).length * M ≤ st.cts + buf.length * M := by
            rcases hpf with ⟨_, hnf⟩ | ⟨_, hnf, _⟩
            · have hd : (buf.drop nf).length * M ≤ (buf.length - 1) * M :=
                Nat.mul_le_mul_right M (by simp [List.length_drop]; omega)
              obtain ⟨k, hk⟩ := Nat.exists_eq_add_of_le hbl
              have hsplit : M + (buf.length - 1) * M = buf.length * M := by
                rw [hk]
                simp [Nat.add_sub_cancel_left, Nat.add_mul]
              calc (emitStep st buf nf h2 cl pp).1.cts + (buf.drop nf).length * M
                  ≤ st.cts + M + (buf.length - 1) * M :=
                    Nat.add_le_add he2 hd
                _ = st.cts + buf.length * M := by rw [Nat.add_assoc, hsplit]
            · have hd : (buf.drop nf).length = 0 := by
                simp [List.length_drop, hnf]
              rw [hd, Nat.zero_mul, Nat.add_zero]
              exact he2.trans (Nat.add_le_add_left (Nat.le_mul_of_pos_left M hbl) _)
          simp only [drainF, if_neg hlen, hpb, if_neg hinit]
          have hnw2 : (emitStep st buf nf h2 cl pp).1.cts +
              (buf.drop nf).length * M < 2 ^ 64 := lt_of_le_of_lt hkey hnw
          obtain ⟨r1, r2, r3, r4, r5, r6⟩ :=
            ih (emitStep st buf nf h2 cl pp).1 (buf.drop nf)
              (emitStep st buf nf h2 cl pp).2.2.1
              (emitStep st buf nf h2 cl pp).2.2.2.1 pp fl he3 he4 he6 hnw2
          refine ⟨he1.trans r1, r2.trans hkey, r3, r4, ?_, ?_⟩
          · intro p hp
            rw [outFrames_append] at hp
            rcases List.mem_append.mp hp with hp | hp
            · have := he5 p hp
              rw [this]
              exact ⟨le_refl _, he1.trans r1⟩
            · have := r5 p hp
              exact ⟨he1.trans this.1, this.2⟩
          · rw [outFrames_append, List.map_append]
            refine List.pairwise_append.mpr ⟨?_, r6, ?_⟩
            · refine List.pairwise_of_forall_mem_list ?_
              intro a ha b hb
              rw [List.mem_map] at ha hb
              obtain ⟨pa, hpa, rfl⟩ := ha
              obtain ⟨pb, hpb, rfl⟩ := hb
              rw [he5 pa hpa, he5 pb hpb]
            · intro a ha b hb
              rw [List.mem_map] at ha hb
              obtain ⟨pa, hpa, rfl⟩ := ha
              obtain ⟨pb, hpb, rfl⟩ := hb
              rw [he5 pa hpa]
              exact he1.trans (r5 pb hpb).1


theorem process_pck_c8 (st : DmxCtx) (junk : FLACHeader) (pckCts : Option Nat)
    (chunk : List Nat) (M : Nat)
    (hts : st.timescale = 0) (hseek : st.in_seek = false)
    (hM : 65536 ≤ M) (hj : junk.block_size ≤ M)
    (hnw : st.cts + (st.buffer.length + chunk.length) * M < 2 ^ 64) :
    st.cts ≤ (flac_dmx_process_pck st junk pckCts chunk).st.cts ∧
    (flac_dmx_process_pck st junk pckCts chunk).st.cts +
      (flac_dmx_process_pck st junk pckCts chunk).st.buffer.length * M ≤
      st.cts + (st.buffer.length + chunk.length) * M ∧
    (flac_dmx_process_pck st junk pckCts chunk).st.timescale = 0 ∧
    (flac_dmx_process_pck st junk pckCts chunk).st.in_seek = false ∧
    (∀ p ∈ outFrames (flac_dmx_process_pck st junk pckCts chunk).outs,
      st.cts ≤ p.2 ∧ p.2 ≤ (flac_dmx_process_pck st junk pckCts chunk).st.cts) ∧
    ((outFrames (flac_dmx_process_pck st junk pckCts chunk).outs).map Prod.snd).Pairwise
      (fun a b => a ≤ b) := by
  have hself : st.buffer.length * M ≤ (st.buffer.length + chunk.length) * M :=
    Nat.mul_le_mul_right M (Nat.le_add_right _ _)
  by_cases herr : st.in_error
  · simp only [flac_dmx_process_pck, if_pos herr]
    exact ⟨le_refl _, Nat.add_le_add_left hself _, hts, hseek,
      by simp [outFrames], by simp [outFrames]⟩
  · by_cases hidle : st.opid ∧ st.is_playing = false
    · simp only [flac_dmx_process_pck, if_neg herr, if_pos hidle]
      exact ⟨le_refl _, Nat.add_le_add_left hself _, hts, hseek,
        by simp [outFrames], by simp [outFrames]⟩
    · have hnw2 : st.cts + (st.buffer ++ chunk).length * M < 2 ^ 64 := by
        rw [List.length_append]; exact hnw
      obtain ⟨r1, r2, r3, r4, r5, r6⟩ :=
        drainF_c8 M hM ((st.buffer ++ chunk).length + 1) st (st.buffer ++ chunk)
          junk none 0 false hts hseek hj hnw2
      have r2b : (drainF ((st.buffer ++ chunk).length + 1) st (st.buffer ++ chunk)
          junk none 0 false).st.cts +
          (drainF ((st.buffer ++ chunk).length + 1) st (st.buffer ++ chunk)
          junk none 0 false).leftover.length * M ≤
          st.cts + (st.buffer.length + chunk.length) * M := by
        rw [← List.length_append]; exact r2
      simp only [flac_dmx_process_pck, if_neg herr, if_neg hidle, hts]
      simp only [ne_eq, not_true_eq_false, false_and, if_false, ite_false,
        reduceIte, Option.isNone_none]
      exact ⟨r1, r2b, r3, r4, r5, r6⟩

theorem process_eos_c8 (st : DmxCtx) (junk : FLACHeader) (M : Nat)
    (hts : st.timescale = 0) (hseek : st.in_seek = false)
    (hM : 65536 ≤ M) (hj : junk.block_size ≤ M)
    (hnw : st.cts + st.buffer.length * M < 2 ^ 64) :
    st.cts ≤ (flac_dmx_process_eos st junk).st.cts ∧
    (flac_dmx_process_eos st junk).st.cts +
      (flac_dmx_process_eos st junk).st.buffer.length * M ≤
      st.cts + st.buffer.length * M ∧
    (flac_dmx_process_eos st junk).st.timescale = 0 ∧
    (flac_dmx_process_eos st junk).st.in_seek = false ∧
    (∀ p ∈ outFrames (flac_dmx_process_eos st junk).outs,
      st.cts ≤ p.2 ∧ p.2 ≤ (flac_dmx_process_eos st junk).st.cts) ∧
    ((outFrames (flac_dmx_process_eos st junk).outs).map Prod.snd).Pairwise
      (fun a b => a ≤ b) := by
  by_cases herr : st.in_error
  · simp only [flac_dmx_process_eos, if_pos herr]
    exact ⟨le_refl _, le_refl _, hts, hseek, by simp [outFrames], by simp [outFrames]⟩
  · by_cases hidle : st.opid ∧ st.is_playing = false
    · simp only [flac_dmx_process_eos, if_neg herr, if_pos hidle]
      exact ⟨le_refl _, le_refl _, hts, hseek, by simp [outFrames], by simp [outFrames]⟩
    · by_cases hemp : st.buffer.isEmpty
      · simp only [flac_dmx_process_eos, if_neg herr, if_neg hidle, if_pos hemp]
        exact ⟨le_refl _, le_refl _, hts, hseek, by simp [outFrames], by simp [outFrames]⟩
      · obtain ⟨r1, r2, r3, r4, r5, r6⟩ :=
          drainF_c8 M hM (st.buffer.length + 1) st st.buffer junk none
            st.buffer.length true hts hseek hj hnw
        have r2b : (drainF (st.buffer.length + 1) st st.buffer junk none
            st.buffer.length true).st.cts + List.length ([] : List Nat) * M ≤
            st.cts + st.buffer.length * M := by
          simp only [List.length_nil, Nat.zero_mul, Nat.add_zero]
          exact le_trans (Nat.le_add_right _ _) r2
        simp only [flac_dmx_process_eos, if_neg herr, if_neg hidle, if_neg hemp]
        cases hret : (drainF (st.buffer.length + 1) st st.buffer junk none
            st.buffer.length true).ret with
        | ok =>
          by_cases hidle2 : (drainF (st.buffer.length + 1) st st.buffer junk none
              st.buffer.length true).st.opid = true ∧
              (drainF (st.buffer.length + 1) st st.buffer junk none
              st.buffer.length true).st.is_playing = false
          · simp only [if_pos hidle2]
            exact ⟨r1, r2b, r3, r4, r5, r6⟩
          · simp only [if_neg hidle2]
            refine ⟨r1, r2b, r3, r4, ?_, ?_⟩
            · intro p hp
              rw [outFrames_append] at hp
              rcases List.mem_append.mp hp with hp | hp
              · exact r5 p hp
              · simp [outFrames] at hp
            · rw [outFrames_append]
              simp only [outFrames, List.filterMap_cons, List.filterMap_nil,
                List.append_nil]
              exact r6
        | eos => exact ⟨r1, r2b, r3, r4, r5, r6⟩
        | nonCompliantBitstream => exact ⟨r1, r2b, r3, r4, r5, r6⟩


theorem runChunks_c8 (M : Nat) (hM : 65536 ≤ M) (junk : FLACHeader)
    (hj : junk.block_size ≤ M) :
    ∀ (cs : List (List Nat)) (st : DmxCtx),
      st.timescale = 0 → st.in_seek = false →
      st.cts + (st.buffer.length + (cs.map List.length).sum) * M < 2 ^ 64 →
      st.cts ≤ (runChunks st junk cs).st.cts ∧
      (runChunks st junk cs).st.cts + (runChunks st junk cs).st.buffer.length * M ≤
        st.cts + (st.buffer.length + (cs.map List.length).sum) * M ∧
      (runChunks st junk cs).st.timescale = 0 ∧
      (runChunks st junk cs).st.in_seek = false ∧
      (∀ p ∈ outFrames (runChunks st junk cs).outs,
        st.cts ≤ p.2 ∧ p.2 ≤ (runChunks st junk cs).st.cts) ∧
      ((outFrames (runChunks st junk cs).outs).map Prod.snd).Pairwise
        (fun a b => a ≤ b) := by
  intro cs
  induction cs with
  | nil =>
    intro st hts hseek hnw
    simp only [List.map_nil, List.sum_nil, Nat.add_zero] at hnw
    simp only [runChunks, List.map_nil, List.sum_nil, Nat.add_zero]
    exact process_eos_c8 st junk M hts hseek hM hj hnw
  | cons c rest ih =>
    intro st hts hseek hnw
    simp only [List.map_cons, List.sum_cons] at hnw
    have hle1 : (st.buffer.length + c.length) * M ≤
        (st.buffer.length + (c.length + (List.map List.length rest).sum)) * M :=
      Nat.mul_le_mul_right M (by omega)
    have hnw1 : st.cts + (st.buffer.length + c.length) * M < 2 ^ 64 :=
      lt_of_le_of_lt (Nat.add_le_add_left hle1 _) hnw
    obtain ⟨p1, p2, p3, p4, p5, p6⟩ :=
      process_pck_c8 st junk none c M hts hseek hM hj hnw1
    have e1 : (flac_dmx_process_pck st junk none c).st.cts +
        (flac_dmx_process_pck st junk none c).st.buffer.length * M +
        (List.map List.length rest).sum * M =
        (flac_dmx_process_pck st junk none c).st.cts +
        ((flac_dmx_process_pck st junk none c).st.buffer.length +
          (List.map List.length rest).sum) * M := by ring
    have e2 : st.cts + (st.buffer.length + c.length) * M +
        (List.map List.length rest).sum * M =
        st.cts + (st.buffer.length +
          (c.length + (List.map List.length rest).sum)) * M := by ring
    have hchain : (flac_dmx_process_pck st junk none c).st.cts +
        ((flac_dmx_process_pck st junk none c).st.buffer.length +
          (List.map List.length rest).sum) * M ≤
        st.cts + (st.buffer.length +
          (c.length + (List.map List.length rest).sum)) * M := by
      have h1 := Nat.add_le_add_right p2 ((List.map List.length rest).sum * M)
      rw [e1, e2] at h1
      exact h1
    have hnw2 : (flac_dmx_process_pck st junk none c).st.cts +
        ((flac_dmx_process_pck st junk none c).st.buffer.length +
          (List.map List.length rest).sum) * M < 2 ^ 64 :=
      lt_of_le_of_lt hchain hnw
    obtain ⟨q1, q2, q3, q4, q5, q6⟩ :=
      ih (flac_dmx_process_pck st junk none c).st p3 p4 hnw2
    simp only [runChunks, List.map_cons, List.sum_cons]
    refine ⟨p1.trans q1, q2.trans hchain, q3, q4, ?_, ?_⟩
    · intro p hp
      rw [outFrames_append] at hp
      rcases List.mem_append.mp hp with hp | hp
      · obtain ⟨hpa, hpb⟩ := p5 p hp
        exact ⟨hpa, hpb.trans q1⟩
      · obtain ⟨hpa, hpb⟩ := q5 p hp
        exact ⟨p1.trans hpa, hpb⟩
    · rw [outFrames_append, List.map_append]
      refine List.pairwise_append.mpr ⟨p6, q6, ?_⟩
      intro a ha b hb
      rw [List.mem_map] at ha hb
      obtain ⟨pa, hpa, rfl⟩ := ha
      obtain ⟨pb, hpb, rfl⟩ := hb
      exact (p5 pa hpa).2.trans (q5 pb hpb).1


/-- C8: clock monotonicity and stop reset.  In the self-clocked mode
(no output timescale configured, hence also no packet-timestamp
takeover), with no seek suppression pending and the 64-bit clock far
enough from wrap-around, the composition timestamps of all frames
emitted across a whole run are non-decreasing; a stop event clears the
playing flag, releases the held input reference and resets cts to 0;
and a following play on a non-file source restarts playing with cts
still 0 and the initialized flag and established sample rate untouched. -/
theorem claim_C8_theorem (st : DmxCtx) (junk : FLACHeader) (chunks : List (List Nat))
    (M : Nat) (hts : st.timescale = 0) (hseek : st.in_seek = false)
    (hM : 65536 ≤ M) (hj : junk.block_size ≤ M) (hf : st.is_file = false)
    (hnw : st.cts + (st.buffer.length + (chunks.map List.length).sum) * M < 2 ^ 64) :
    ((outFrames (runChunks st junk chunks).outs).map Prod.snd).Pairwise
      (fun a b => a ≤ b) ∧
    flac_dmx_process_event st .stop =
      ⟨{st with is_playing := false, src_pck := false, cts := 0}, false, none⟩ ∧
    (flac_dmx_process_event
        (flac_dmx_process_event st .stop).st (.play 0)).st.cts = 0 ∧
    (flac_dmx_process_event
        (flac_dmx_process_event st .stop).st (.play 0)).st.is_playing = true ∧
    (flac_dmx_process_event
        (flac_dmx_process_event st .stop).st (.play 0)).st.initialized =
      st.initialized ∧
    (flac_dmx_process_event
        (flac_dmx_process_event st .stop).st (.play 0)).st.sample_rate =
      st.sample_rate := by
  refine ⟨(runChunks_c8 M hM junk hj chunks st hts hseek hnw).2.2.2.2.2, rfl, ?_⟩
  by_cases hip : st.initial_play_done <;>
    simp [flac_dmx_process_event, hf, hip]

set_option maxRecDepth 10000 in
theorem claim_C8_witness :
    ((outFrames (runChunks tvCtx0 tvJunk [tvStreamA]).outs).map Prod.snd).Pairwise
      (fun a b => a ≤ b) ∧
    flac_dmx_process_event tvCtx0 .stop =
      ⟨{tvCtx0 with is_playing := false, src_pck := false, cts := 0}, false, none⟩ ∧
    (flac_dmx_process_event
        (flac_dmx_process_event tvCtx0 .stop).st (.play 0)).st.cts = 0 ∧
    (flac_dmx_process_event
        (flac_dmx_process_event tvCtx0 .stop).st (.play 0)).st.is_playing = true ∧
    (flac_dmx_process_event
        (flac_dmx_process_event tvCtx0 .stop).st (.play 0)).st.initialized =
      tvCtx0.initialized ∧
    (flac_dmx_process_event
        (flac_dmx_process_event tvCtx0 .stop).st (.play 0)).st.sample_rate =
      tvCtx0.sample_rate :=
  claim_C8_theorem tvCtx0 tvJunk [tvStreamA] 65536 rfl rfl (by decide) (by decide)
    rfl (by decide)


theorem candStep (st : DmxCtx) (buf : List Nat) (i : Nat)
    (hfail : candidateOK st buf i = false)
    (hlook : byteAt buf i = 0xFF → i + 17 < buf.length) (q : Nat) (h : FLACHeader) :
    (i ≤ q ∧ q + 17 < buf.length ∧ candidateOK st buf q = true ∧
     flac_parse_header st.sample_rate (buf.drop q) = some h ∧
     ∀ j, i ≤ j → j < q → candidateOK st buf j = false ∧
       (byteAt buf j = 0xFF → j + 17 < buf.length)) ↔
    (i + 1 ≤ q ∧ q + 17 < buf.length ∧ candidateOK st buf q = true ∧
     flac_parse_header st.sample_rate (buf.drop q) = some h ∧
     ∀ j, i + 1 ≤ j → j < q → candidateOK st buf j = false ∧
       (byteAt buf j = 0xFF → j + 17 < buf.length)) := by
  constructor
  · rintro ⟨hiq, hql, hcand, hp, hall⟩
    have hne : q ≠ i := by
      rintro rfl
      rw [hcand] at hfail
      cases hfail
    exact ⟨by omega, hql, hcand, hp, fun j hj hjq => hall j (by omega) hjq⟩
  · rintro ⟨hiq, hql, hcand, hp, hall⟩
    refine ⟨by omega, hql, hcand, hp, fun j hj hjq => ?_⟩
    rcases Nat.eq_or_lt_of_le hj with rfl | hlt
    · exact ⟨hfail, hlook⟩
    · exact hall j (by omega) hjq

theorem syncScanAux_found_iff (st : DmxCtx) (buf : List Nat) :
    ∀ (t : List Nat) (i : Nat), t = buf.drop i →
      ∀ (q : Nat) (h : FLACHeader),
      (syncScanAux st buf t i = .found q h ↔
        i ≤ q ∧ q + 17 < buf.length ∧ candidateOK st buf q = true ∧
        flac_parse_header st.sample_rate (buf.drop q) = some h ∧
        ∀ j, i ≤ j → j < q →
          candidateOK st buf j = false ∧ (byteAt buf j = 0xFF → j + 17 < buf.length)) := by
  intro t
  induction t with
  | nil =>
    intro i ht q h
    constructor
    · intro hs
      simp [syncScanAux] at hs
    · rintro ⟨hiq, hql, hcand, hp, hall⟩
      exfalso
      have hlen : buf.length ≤ i := by
        have := congrArg List.length ht
        simp [List.length_drop] at this
        omega
      omega
  | cons b rest ih =>
    intro i ht q h
    have hilt : i < buf.length := by
      by_contra hge
      rw [List.drop_eq_nil_of_le (by omega)] at ht
      cases ht
    have hcons := List.drop_eq_getElem_cons hilt
    rw [← ht] at hcons
    injection hcons with hbv hrest
    have hbyte : byteAt buf i = b % 256 := by
      rw [byteAt, List.getD_eq_getElem buf 0 hilt, ← hbv]
    by_cases h1 : b % 256 = 0xFF
    · by_cases h2 : buf.length ≤ i + 17
      · simp only [syncScanAux, if_pos h1, if_pos h2]
        constructor
        · intro hs; cases hs
        · rintro ⟨hiq, hql, hcand, hp, hall⟩
          exfalso
          rcases Nat.eq_or_lt_of_le hiq with rfl | hlt
          · omega
          · exact absurd ((hall i (le_refl _) hlt).2 (by rw [hbyte]; exact h1)) (by omega)
      · by_cases h3 : byteAt buf (i + 1) &&& 0xFC = 0xF8
        · cases hparse : flac_parse_header st.sample_rate (buf.drop i) with
          | none =>
            simp only [syncScanAux, if_pos h1, if_neg h2, if_pos h3, hparse]
            rw [ih (i + 1) hrest q h]
            exact (candStep st buf i (by simp [candidateOK, hparse])
              (fun _ => by omega) q h).symm
          | some hh =>
            by_cases h4 : st.initialized = false
            · simp only [syncScanAux, if_pos h1, if_neg h2, if_pos h3, hparse, if_pos h4]
              have hcandi : candidateOK st buf i = true := by
                simp [candidateOK, hparse, hbyte, h1, h3, h4]
              constructor
              · intro hs
                simp only [ScanRes.found.injEq] at hs
                obtain ⟨rfl, rfl⟩ := hs
                exact ⟨le_refl _, by omega, hcandi, hparse,
                  fun j hj hjq => absurd hjq (by omega)⟩
              · rintro ⟨hiq, hql, hcand, hp, hall⟩
                have hqi : q = i := by
                  by_contra hne
                  have := (hall i (le_refl _) (by omega)).1
                  rw [hcandi] at this
                  cases this
                subst hqi
                rw [hparse] at hp
                injection hp with hp
                rw [hp]
            · by_cases h5 : st.docrc = false ∧ hh.sample_rate = st.sample_rate ∧
                  hh.channels = st.ch_layout
              · simp only [syncScanAux, if_pos h1, if_neg h2, if_pos h3, hparse,
                  if_neg h4, if_pos h5]
                have hcandi : candidateOK st buf i = true := by
                  simp [candidateOK, hparse, hbyte, h1, h3, h5.1, h5.2.1, h5.2.2]
                constructor
                · intro hs
                  simp only [ScanRes.found.injEq] at hs
                  obtain ⟨rfl, rfl⟩ := hs
                  exact ⟨le_refl _, by omega, hcandi, hparse,
                    fun j hj hjq => absurd hjq (by omega)⟩
                · rintro ⟨hiq, hql, hcand, hp, hall⟩
                  have hqi : q = i := by
                    by_contra hne
                    have := (hall i (le_refl _) (by omega)).1
                    rw [hcandi] at this
                    cases this
                  subst hqi
                  rw [hparse] at hp
                  injection hp with hp
                  rw [hp]
              · by_cases h6 : flac_dmx_crc16 (buf.take (i - 2)) =
                    byteAt buf (i - 1) * 256 + byteAt buf (i - 2)
                · simp only [syncScanAux, if_pos h1, if_neg h2, if_pos h3, hparse,
                    if_neg h4, if_neg h5, if_pos h6]
                  have hcandi : candidateOK st buf i = true := by
                    simp [candidateOK, hparse, hbyte, h1, h3, h6]
                  constructor
                  · intro hs
                    simp only [ScanRes.found.injEq] at hs
                    obtain ⟨rfl, rfl⟩ := hs
                    exact ⟨le_refl _, by omega, hcandi, hparse,
                      fun j hj hjq => absurd hjq (by omega)⟩
                  · rintro ⟨hiq, hql, hcand, hp, hall⟩
                    have hqi : q = i := by
                      by_contra hne
                      have := (hall i (le_refl _) (by omega)).1
                      rw [hcandi] at this
                      cases this
                    subst hqi
                    rw [hparse] at hp
                    injection hp with hp
                    rw [hp]
                · simp only [syncScanAux, if_pos h1, if_neg h2, if_pos h3, hparse,
                    if_neg h4, if_neg h5, if_neg h6]
                  rw [ih (i + 1) hrest q h]
                  have h4b : st.initialized = true := by
                    revert h4
                    cases st.initialized <;> simp
                  have h5b : (!st.docrc && (hh.sample_rate == st.sample_rate) &&
                      (hh.channels == st.ch_layout)) = false := by
                    by_cases hd : st.docrc = false
                    · by_cases hs : hh.sample_rate = st.sample_rate
                      · by_cases hc : hh.channels = st.ch_layout
                        · exact absurd ⟨hd, hs, hc⟩ h5
                        · simp [hc]
                      · simp [hs]
                    · have : st.docrc = true := by
                        revert hd
                        cases st.docrc <;> simp
                      simp [this]
                  have hfail : candidateOK st buf i = false := by
                    simp [candidateOK, hparse, h4b, h5b, h6]
                  exact (candStep st buf i hfail (fun _ => by omega) q h).symm
        · simp only [syncScanAux, if_pos h1, if_neg h2, if_neg h3]
          rw [ih (i + 1) hrest q h]
          have hfail : candidateOK st buf i = false := by
            simp [candidateOK, h3]
          exact (candStep st buf i hfail (fun _ => by omega) q h).symm
    · simp only [syncScanAux, if_neg h1]
      rw [ih (i + 1) hrest q h]
      have hfail : candidateOK st buf i = false := by
        simp [candidateOK, hbyte, h1]
      have hlook : byteAt buf i = 0xFF → i + 17 < buf.length := by
        intro hc
        rw [hbyte] at hc
        exact absurd hc h1
      exact (candStep st buf i hfail hlook q h).symm


/-- C2: frame-candidate acceptance policy.  The synchronizer reports a
candidate at q with header h exactly when q lies at least two bytes into
the window, at least 18 bytes including the sync byte are available, the
position passes the acceptance policy of the claim (sync byte 0xFF,
0xF8-masked second byte, successful header decode, then first-frame
immediate acceptance, or unchanged sample rate and channel layout with
docrc off, or a matching footer CRC16 over the bytes from the window
start - the previous frame sync byte - up to the two trailing bytes read
little endian), h is the decoded header, and every earlier position was
rejected by that same policy while no earlier 0xFF position lacked the
18-byte lookahead; a rejected candidate thus resumes scanning one byte
further, and rejection is exactly footer-CRC16 mismatch in every case
not accepted earlier. -/
theorem claim_C2_theorem (st : DmxCtx) (buf : List Nat) (q : Nat) (h : FLACHeader) :
    syncScan st buf = .found q h ↔
      2 ≤ q ∧ q + 17 < buf.length ∧ candidateOK st buf q = true ∧
      flac_parse_header st.sample_rate (buf.drop q) = some h ∧
      ∀ j, 2 ≤ j → j < q →
        candidateOK st buf j = false ∧ (byteAt buf j = 0xFF → j + 17 < buf.length) :=
  syncScanAux_found_iff st buf (buf.drop 2) 2 rfl q h

set_option maxRecDepth 100000 in
theorem claim_C2_witness :
    2 ≤ 24 ∧ 24 + 17 < (tvFrameA1 ++ tvFrameA2).length ∧
    candidateOK tvCtxSync (tvFrameA1 ++ tvFrameA2) 24 = true ∧
    flac_parse_header tvCtxSync.sample_rate ((tvFrameA1 ++ tvFrameA2).drop 24) =
      some ⟨4096, 44100, 1⟩ ∧
    (∀ j, 2 ≤ j → j < 24 →
      candidateOK tvCtxSync (tvFrameA1 ++ tvFrameA2) j = false ∧
      (byteAt (tvFrameA1 ++ tvFrameA2) j = 0xFF →
        j + 17 < (tvFrameA1 ++ tvFrameA2).length)) :=
  (claim_C2_theorem tvCtxSync (tvFrameA1 ++ tvFrameA2) 24 ⟨4096, 44100, 1⟩).mp
    (by decide)


theorem testBit_shift_add (a b m t : Nat) (hmt : m ≤ t) (hb : b < 2 ^ m) :
    Nat.testBit (a * 2 ^ m + b) t = Nat.testBit a (t - m) := by
  rw [Nat.testBit_to_div_mod, Nat.testBit_to_div_mod]
  have h1 : (a * 2 ^ m + b) / 2 ^ t = a / 2 ^ (t - m) := by
    rw [show (2:Nat) ^ t = 2 ^ m * 2 ^ (t - m) by rw [← pow_add]; congr 1; omega]
    rw [← Nat.div_div_eq_div_mul]
    congr 1
    rw [Nat.mul_comm a, Nat.mul_add_div (Nat.two_pow_pos m), Nat.div_eq_of_lt hb,
      Nat.add_zero]
  rw [h1]

theorem and_two_pow_zero (x t : Nat) :
    (x &&& 2 ^ t = 0) ↔ (Nat.testBit x t = false) := by
  rw [Nat.and_two_pow]
  cases h : Nat.testBit x t <;> simp [Nat.pos_iff_ne_zero.mp (Nat.two_pow_pos t)]

set_option maxRecDepth 4000 in
theorem and192_div : ∀ x, x < 256 → ((x &&& 192 = 128) ↔ (x / 64 = 2)) := by decide

set_option maxRecDepth 4000 in
theorem shift128 : ∀ x, x < 256 →
    (x &&& 128) >>> 1 = if Nat.testBit x 7 then 64 else 0 := by decide

set_option maxRecDepth 4000 in
theorem contCnt_le5 : ∀ x, x < 254 → contCnt x ≤ 5 := by decide

set_option maxRecDepth 4000 in
theorem contCnt_testBit_true : ∀ x, x < 256 → ∀ k, k < 6 → k < contCnt x →
    Nat.testBit x (6 - k) = true := by decide

set_option maxRecDepth 4000 in
theorem contCnt_head : ∀ x, x < 256 → Nat.testBit x 7 = true →
    ¬(x &&& 192 = 128) →
    0 < contCnt x ∧ (contCnt x < 6 → Nat.testBit x (6 - contCnt x) = false) := by decide

set_option maxRecDepth 4000 in
theorem contCnt_bit7_false : ∀ x, x < 256 → Nat.testBit x 7 = false →
    contCnt x = 0 := by decide


theorem varLoopF_succ (fuel : Nat) (d : List Nat) (s : Rd) (res top : Nat) :
    varLoopF (fuel + 1) d s res top =
      if res &&& top = 0 then some s
      else
        if (readBits d s 8).1 < 128 ∨ 192 ≤ (readBits d s 8).1 then none
        else varLoopF fuel d (readBits d s 8).2
          (((res <<< 6) + ((readBits d s 8).1 - 128)) % 2 ^ 32)
          ((top <<< 5) % 2 ^ 32) := rfl

set_option maxRecDepth 4000 in
theorem varLoopF_chain (data : List Nat) (hlen : 17 ≤ data.length) (res0 : Nat)
    (hres : res0 < 256) (hc5 : contCnt res0 ≤ 5)
    (hstop : contCnt res0 < 6 → Nat.testBit res0 (6 - contCnt res0) = false)
    (hrun : ∀ k, k < 6 → k < contCnt res0 → Nat.testBit res0 (6 - k) = true) :
    ∀ m k P, k + m = 6 → P < 2 ^ (6 * k) → k ≤ contCnt res0 →
    varLoopF (m + 2) data ⟨40 + 8 * k, false⟩ ((res0 * 2 ^ (6 * k) + P) % 2 ^ 32)
        (2 ^ (6 + 5 * k) % 2 ^ 32) =
      (if ∀ i, i < contCnt res0 → k ≤ i → byteAt data (5 + i) / 64 = 2 then
        some ⟨40 + 8 * contCnt res0, false⟩
      else none) := by
  intro m
  induction m with
  | zero =>
    intro k P hk hP hkc
    exact absurd hk (by omega)
  | succ m ih =>
    intro k P hk hP hkc
    have hk5 : k ≤ 5 := le_trans hkc hc5
    have hcnt6 : contCnt res0 < 6 := by omega
    have htop : (2:Nat) ^ (6 + 5 * k) % 2 ^ 32 = 2 ^ (6 + 5 * k) :=
      Nat.mod_eq_of_lt (Nat.pow_lt_pow_right one_lt_two (by omega))
    have hlt32 : 6 + 5 * k < 32 := by omega
    have hbitX : Nat.testBit ((res0 * 2 ^ (6 * k) + P) % 2 ^ 32) (6 + 5 * k) =
        Nat.testBit res0 (6 - k) := by
      rw [Nat.testBit_mod_two_pow,
        testBit_shift_add res0 P (6 * k) (6 + 5 * k) (by omega) hP,
        show 6 + 5 * k - 6 * k = 6 - k by omega]
      simp [hlt32]
    rw [show m + 1 + 2 = (m + 2) + 1 by ring, varLoopF_succ]
    by_cases hkeq : k = contCnt res0
    · have hbit : Nat.testBit res0 (6 - k) = false := by
        rw [hkeq]; exact hstop hcnt6
      have hand : (res0 * 2 ^ (6 * k) + P) % 2 ^ 32 &&& 2 ^ (6 + 5 * k) % 2 ^ 32 = 0 := by
        rw [htop]
        exact (and_two_pow_zero _ _).mpr (hbitX.trans hbit)
      rw [if_pos hand, if_pos (fun i h2 h1 => absurd h2 (by omega)), hkeq]
    · have hklt : k < contCnt res0 := by omega
      have hk4 : k ≤ 4 := by omega
      have hbit : Nat.testBit res0 (6 - k) = true := hrun k (by omega) hklt
      have hand : ¬((res0 * 2 ^ (6 * k) + P) % 2 ^ 32 &&& 2 ^ (6 + 5 * k) % 2 ^ 32 = 0) := by
        rw [htop]
        intro h0
        have hft := (and_two_pow_zero _ _).mp h0
        rw [hbitX, hbit] at hft
        cases hft
      rw [if_neg hand]
      have hrb : (readBits data ⟨40 + 8 * k, false⟩ 8).1 = byteAt data (5 + k) := by
        show bitsVal data (40 + 8 * k) 8 = _
        rw [show 40 + 8 * k = 8 * (5 + k) by ring, bitsVal_byte]
      have hrs : (readBits data ⟨40 + 8 * k, false⟩ 8).2 = ⟨40 + 8 * (k + 1), false⟩ := by
        have hno : ¬(8 * data.length < 40 + 8 * k + 8) := by omega
        simp only [readBits]
        rw [Rd.mk.injEq]
        exact ⟨by ring, by simp [hno]⟩
      have hbb : byteAt data (5 + k) < 256 := byteAt_lt data (5 + k)
      by_cases hval : byteAt data (5 + k) / 64 = 2
      · have hcond : ¬((readBits data ⟨40 + 8 * k, false⟩ 8).1 < 128 ∨
            192 ≤ (readBits data ⟨40 + 8 * k, false⟩ 8).1) := by
          rw [hrb]; omega
        rw [if_neg hcond, hrb, hrs]
        have hX1 : res0 * 2 ^ (6 * k) + P < 256 * 2 ^ (6 * k) :=
          lt_of_lt_of_le (Nat.add_lt_add_left hP _) (by
            have he : res0 * 2 ^ (6 * k) + 2 ^ (6 * k) = (res0 + 1) * 2 ^ (6 * k) := by
              ring
            rw [he]
            exact Nat.mul_le_mul_right _ (by omega))
        have hXlt : res0 * 2 ^ (6 * k) + P < 2 ^ 32 :=
          lt_of_lt_of_le hX1 (by
            calc 256 * 2 ^ (6 * k) ≤ 256 * 2 ^ 24 :=
                  Nat.mul_le_mul_left _ (Nat.pow_le_pow_right (by norm_num) (by omega))
              _ = 2 ^ 32 := by norm_num)
        have hres2 : ((((res0 * 2 ^ (6 * k) + P) % 2 ^ 32) <<< 6) +
            (byteAt data (5 + k) - 128)) % 2 ^ 32 =
            (res0 * 2 ^ (6 * (k + 1)) +
              (P * 64 + (byteAt data (5 + k) - 128))) % 2 ^ 32 := by
          rw [Nat.mod_eq_of_lt hXlt, Nat.shiftLeft_eq]
          congr 1
          rw [show 6 * (k + 1) = 6 * k + 6 by ring, pow_add]
          ring
        have htop2 : (2 ^ (6 + 5 * k) % 2 ^ 32) <<< 5 % 2 ^ 32 =
            2 ^ (6 + 5 * (k + 1)) % 2 ^ 32 := by
          rw [htop, Nat.shiftLeft_eq, ← pow_add,
            show 6 + 5 * k + 5 = 6 + 5 * (k + 1) by omega]
        rw [hres2, htop2]
        have hP2 : P * 64 + (byteAt data (5 + k) - 128) < 2 ^ (6 * (k + 1)) := by
          have he : (2:Nat) ^ (6 * (k + 1)) = 2 ^ (6 * k) * 64 := by
            rw [show 6 * (k + 1) = 6 * k + 6 by ring, pow_add]
            norm_num
          have h1 : P * 64 ≤ (2 ^ (6 * k) - 1) * 64 :=
            Nat.mul_le_mul_right _ (by omega)
          have h2 : (0:Nat) < 2 ^ (6 * k) := Nat.two_pow_pos _
          rw [he]
          have h3 : (2 ^ (6 * k) - 1) * 64 + 64 = 2 ^ (6 * k) * 64 := by
            have h4 : (2:Nat) ^ (6 * k) - 1 + 1 = 2 ^ (6 * k) := by omega
            calc (2 ^ (6 * k) - 1) * 64 + 64 = ((2 ^ (6 * k) - 1) + 1) * 64 := by ring
              _ = 2 ^ (6 * k) * 64 := by rw [h4]
          omega
        have e1 : k + 1 + m = 6 := by omega
        have e3 : k + 1 ≤ contCnt res0 := hklt
        rw [ih (k + 1) (P * 64 + (byteAt data (5 + k) - 128)) e1 hP2 e3]
        refine if_congr ⟨fun hall i h2 h1 => ?_,
          fun hall i h2 h1 => hall i h2 (by omega)⟩ rfl rfl
        rcases Nat.eq_or_lt_of_le h1 with rfl | hlt2
        · exact hval
        · exact hall i h2 (by omega)
      · have hcond : (readBits data ⟨40 + 8 * k, false⟩ 8).1 < 128 ∨
            192 ≤ (readBits data ⟨40 + 8 * k, false⟩ 8).1 := by
          rw [hrb]; omega
        rw [if_pos hcond, if_neg]
        intro hall
        exact hval (hall k hklt (le_refl k))


theorem varLoopF_40 (data : List Nat) (res0 : Nat) (hlen : 17 ≤ data.length)
    (hres : res0 < 254) (hnc : ¬(res0 &&& 192 = 128)) :
    varLoopF 8 data ⟨40, false⟩ res0 ((res0 &&& 128) >>> 1) =
      (if ∀ i, i < contCnt res0 → byteAt data (5 + i) / 64 = 2 then
        some ⟨40 + 8 * contCnt res0, false⟩
      else none) := by
  have h256 : res0 < 256 := by omega
  rw [shift128 res0 h256]
  cases hb7 : Nat.testBit res0 7 with
  | false =>
    have hc0 : contCnt res0 = 0 := contCnt_bit7_false res0 h256 hb7
    rw [if_neg (by simp)]
    rw [show (8:Nat) = 7 + 1 from rfl, varLoopF_succ]
    simp only [Nat.and_zero]
    rw [if_pos trivial, if_pos (fun i h2 => absurd h2 (by omega)), hc0]
  | true =>
    rw [if_pos rfl]
    have hch := contCnt_head res0 h256 hb7 hnc
    have hc5 := contCnt_le5 res0 hres
    have hcall : varLoopF 8 data ⟨40, false⟩ res0 64 =
        varLoopF (6 + 2) data ⟨40 + 8 * 0, false⟩
          ((res0 * 2 ^ (6 * 0) + 0) % 2 ^ 32) (2 ^ (6 + 5 * 0) % 2 ^ 32) := by
      have hm : res0 % 4294967296 = res0 := Nat.mod_eq_of_lt (by omega)
      norm_num [hm]
    rw [hcall, varLoopF_chain data hlen res0 h256 hc5 hch.2
      (fun k hk6 hkc => contCnt_testBit_true res0 h256 k hk6 hkc) 6 0 0 rfl
      (by norm_num) (by omega)]
    exact if_congr ⟨fun hall i h2 => hall i h2 (Nat.zero_le i),
      fun hall i h2 h0 => hall i h2⟩ rfl rfl


theorem bits_byte0 (d : List Nat) : bitsVal d 0 8 = byteAt d 0 := by
  have := bitsVal_byte d 0
  simpa using this

theorem bits_prefix7 (d : List Nat) (k : Nat) : bitsVal d (8 * k) 7 = byteAt d k / 2 := by
  have hs := bitsVal_split d (8 * k) 7 1
  norm_num at hs
  rw [bitsVal_byte] at hs
  have h1 := bitsVal_lt d (8 * k + 7) 1
  omega

theorem bits_sync (d : List Nat) : bitsVal d 0 15 = byteAt d 0 * 128 + byteAt d 1 / 2 := by
  have hs := bitsVal_split d 0 8 7
  norm_num at hs
  rw [bits_byte0] at hs
  have h7 := bits_prefix7 d 1
  norm_num at h7
  omega

theorem bits_nib (d : List Nat) (k : Nat) :
    bitsVal d (8 * k) 4 = byteAt d k / 16 ∧ bitsVal d (8 * k + 4) 4 = byteAt d k % 16 := by
  have hs := bitsVal_split d (8 * k) 4 4
  norm_num at hs
  rw [bitsVal_byte] at hs
  have h1 := bitsVal_lt d (8 * k) 4
  have h2 := bitsVal_lt d (8 * k + 4) 4
  norm_num at h1 h2
  omega

theorem bits_b3 (d : List Nat) (k : Nat) :
    bitsVal d (8 * k + 4) 3 = byteAt d k / 2 % 8 ∧
    bitsVal d (8 * k + 7) 1 = byteAt d k % 2 := by
  have hs := bitsVal_split d (8 * k) 4 4
  norm_num at hs
  rw [bitsVal_byte] at hs
  have hs2 := bitsVal_split d (8 * k + 4) 3 1
  norm_num at hs2
  rw [show 8 * k + 4 + 3 = 8 * k + 7 by ring] at hs2
  have h1 := bitsVal_lt d (8 * k) 4
  have h2 := bitsVal_lt d (8 * k + 4) 3
  have h3 := bitsVal_lt d (8 * k + 7) 1
  norm_num at h1 h2 h3
  omega

theorem bits_top1 (d : List Nat) (k : Nat) : bitsVal d (8 * k) 1 = byteAt d k / 128 := by
  have hs := bitsVal_split d (8 * k) 1 7
  norm_num at hs
  rw [bitsVal_byte] at hs
  have h1 := bitsVal_lt d (8 * k) 1
  have h2 := bitsVal_lt d (8 * k + 1) 7
  norm_num at h1 h2
  omega

theorem bits_mid6 (d : List Nat) (k : Nat) :
    bitsVal d (8 * k + 1) 6 = byteAt d k / 2 % 64 := by
  have hs := bitsVal_split d (8 * k) 1 7
  norm_num at hs
  rw [bitsVal_byte] at hs
  have hs2 := bitsVal_split d (8 * k + 1) 6 1
  norm_num at hs2
  rw [show 8 * k + 1 + 6 = 8 * k + 7 by ring] at hs2
  have h1 := bitsVal_lt d (8 * k) 1
  have h2 := bitsVal_lt d (8 * k + 1) 6
  have h3 := bitsVal_lt d (8 * k + 7) 1
  norm_num at h1 h2 h3
  omega


theorem parseBlockSize_rd (data : List Nat) (bsCode m : Nat)
    (hm : 8 * m + 16 ≤ 8 * data.length) :
    (parseBlockSize data bsCode ⟨8 * m, false⟩).2 =
      ⟨8 * (m + (if bsCode = 6 then 1 else if bsCode = 7 then 2 else 0)), false⟩ := by
  by_cases h6 : bsCode = 6 <;> by_cases h7 : bsCode = 7 <;>
    simp +decide [parseBlockSize, h6, h7, readBits, Rd.mk.injEq] <;>
    (try constructor) <;> omega

theorem parseSampleRate_rd (data : List Nat) (ctxSr srCode m : Nat) (hsr : srCode < 15)
    (hm : 8 * m + 16 ≤ 8 * data.length) :
    (parseSampleRate data ctxSr srCode ⟨8 * m, false⟩).2 =
      ⟨8 * (m + (if srCode = 12 then 1 else if srCode = 13 ∨ srCode = 14 then 2
        else 0)), false⟩ := by
  interval_cases srCode <;>
    simp +decide [parseSampleRate, readBits, Rd.mk.injEq] <;>
    (try constructor) <;> omega


theorem parseTail_isSome (data : List Nat) (chLay bs sr pos : Nat)
    (hpos : pos + 2 ≤ 17) (hlen : 17 ≤ data.length) :
    (parseTail data chLay bs sr ⟨8 * pos, false⟩).isSome =
      (decide (byteAt data pos = flac_dmx_crc8 (data.take pos)) &&
       decide (byteAt data (pos + 1) / 128 = 0) &&
       decide (byteAt data (pos + 1) / 2 % 64 = 0 ∨ byteAt data (pos + 1) / 2 % 64 = 1 ∨
         (8 ≤ byteAt data (pos + 1) / 2 % 64 ∧ byteAt data (pos + 1) / 2 % 64 ≤ 12) ∨
         32 ≤ byteAt data (pos + 1) / 2 % 64)) := by
  have hno1 : ¬(8 * data.length < 8 * pos + 8) := by omega
  have hno2 : ¬(8 * data.length < 8 * pos + 8 + 1) := by omega
  have hno3 : ¬(8 * data.length < 8 * pos + 8 + 1 + 6) := by omega
  have hdiv : 8 * pos / 8 = pos := by omega
  have hcrc : bitsVal data (8 * pos) 8 = byteAt data pos := bitsVal_byte data pos
  have hsfr : bitsVal data (8 * pos + 8) 1 = byteAt data (pos + 1) / 128 := by
    have hx := bits_top1 data (pos + 1)
    rw [show 8 * (pos + 1) = 8 * pos + 8 by ring] at hx
    exact hx
  have hsft : bitsVal data (8 * pos + 8 + 1) 6 = byteAt data (pos + 1) / 2 % 64 := by
    have hx := bits_mid6 data (pos + 1)
    rw [show 8 * (pos + 1) + 1 = 8 * pos + 8 + 1 by ring] at hx
    exact hx
  by_cases h1 : byteAt data pos = flac_dmx_crc8 (data.take pos) <;>
  by_cases h2 : byteAt data (pos + 1) / 128 = 0 <;>
  by_cases h3 : byteAt data (pos + 1) / 2 % 64 = 0 ∨ byteAt data (pos + 1) / 2 % 64 = 1 ∨
      (8 ≤ byteAt data (pos + 1) / 2 % 64 ∧ byteAt data (pos + 1) / 2 % 64 ≤ 12) ∨
      32 ≤ byteAt data (pos + 1) / 2 % 64 <;>
    simp [parseTail, readBits, hdiv, hcrc, hsfr, hsft, h1, h2, h3, hno1, hno2, hno3] <;>
    (try omega)


theorem parseHead_char (data : List Nat) (hlen : 17 ≤ data.length) :
    parseHead data =
      (if byteAt data 0 * 128 + byteAt data 1 / 2 ≠ 32764 then none
       else if byteAt data 2 / 16 = 0 then none
       else if byteAt data 2 % 16 = 15 then none
       else if 11 ≤ byteAt data 3 / 16 then none
       else if byteAt data 3 / 2 % 8 = 3 then none
       else if byteAt data 3 % 2 ≠ 0 then none
       else if byteAt data 4 &&& 192 = 128 ∨ 254 ≤ byteAt data 4 then none
       else some (byteAt data 2 / 16, byteAt data 2 % 16,
         (if byteAt data 3 / 16 < 8 then byteAt data 3 / 16 else 1),
         byteAt data 4, ⟨40, false⟩)) := by
  have hv : ∀ c : Nat, c ≤ 136 → (8 * data.length < c) = False :=
    fun c hc => eq_false (by omega)
  have hb2 := bits_nib data 2
  have hb3 := bits_nib data 3
  have hb3b := bits_b3 data 3
  have hsync := bits_sync data
  have hb4 := bitsVal_byte data 4
  norm_num at hb2 hb3 hb3b hb4
  simp only [parseHead, readBits]
  norm_num [hv 15 (by norm_num), hv 16 (by norm_num), hv 20 (by norm_num),
    hv 24 (by norm_num), hv 28 (by norm_num), hv 31 (by norm_num),
    hv 32 (by norm_num), hv 40 (by norm_num), hsync, hb2.1, hb2.2, hb3.1,
    hb3b.1, hb3b.2, hb4]


/-- C5: frame-header decode rejection.  flac_parse_header succeeds exactly
under the byte-level conditions enumerated by the claim: 17 bytes
available, sync constant, nonzero block-size code, sample-rate code below
15, channel assignment at most 10, sample-size code not 3, zero reserved
bit, well-formed variable-length number, matching header CRC8 over the
consumed bytes, zero subframe reserved bit with an allowed type code; with
17 bytes available the reader never overflows, and none of the conditions
depends on the established context sample rate. -/
theorem claim_C5_theorem (ctxSr : Nat) (data : List Nat) :
    (flac_parse_header ctxSr data).isSome = specHeaderOK data := by
  by_cases hlen : data.length < 17
  · have h17 : ¬(17 ≤ data.length) := by omega
    simp [flac_parse_header, specHeaderOK, hlen, h17]
  · have hlen' : 17 ≤ data.length := by omega
    have hb0 := byteAt_lt data 0
    have hb1 := byteAt_lt data 1
    have hb2l := byteAt_lt data 2
    have hb4 := byteAt_lt data 4
    simp only [flac_parse_header, if_neg hlen, parseHead_char data hlen']
    by_cases hsync : byteAt data 0 = 255 ∧ byteAt data 1 / 2 = 124
    case neg =>
      have hs2 : byteAt data 0 * 128 + byteAt data 1 / 2 ≠ 32764 := by
        intro he
        exact hsync (by constructor <;> omega)
      rw [if_pos hs2]
      simp [specHeaderOK, eq_false hsync]
    case pos =>
      have hs2 : ¬(byteAt data 0 * 128 + byteAt data 1 / 2 ≠ 32764) := by
        have h1 := hsync.1
        have h2 := hsync.2
        omega
      rw [if_neg hs2]
      by_cases hbs : byteAt data 2 / 16 = 0
      · rw [if_pos hbs]
        simp [specHeaderOK, eq_true hsync, hbs]
      rw [if_neg hbs]
      by_cases hsr : byteAt data 2 % 16 = 15
      · rw [if_pos hsr]
        simp [specHeaderOK, eq_true hsync, hsr]
      rw [if_neg hsr]
      by_cases hch : 11 ≤ byteAt data 3 / 16
      · rw [if_pos hch]
        have hc4 : ¬(byteAt data 3 / 16 ≤ 10) := by omega
        simp [specHeaderOK, eq_true hsync, hc4]
      rw [if_neg hch]
      by_cases hbps : byteAt data 3 / 2 % 8 = 3
      · rw [if_pos hbps]
        simp [specHeaderOK, eq_true hsync, hbps]
      rw [if_neg hbps]
      by_cases hrsv : byteAt data 3 % 2 ≠ 0
      · rw [if_pos hrsv]
        simp [specHeaderOK, eq_true hsync, hrsv]
      rw [if_neg hrsv]
      by_cases hc7 : byteAt data 4 / 64 = 2
      · have hlead : byteAt data 4 &&& 192 = 128 ∨ 254 ≤ byteAt data 4 :=
          Or.inl ((and192_div (byteAt data 4) hb4).mpr hc7)
        rw [if_pos hlead]
        simp [specHeaderOK, eq_true hsync, hc7]
      by_cases hc8 : 254 ≤ byteAt data 4
      · rw [if_pos (Or.inr hc8)]
        have hc8b : ¬(byteAt data 4 < 254) := by omega
        simp [specHeaderOK, eq_true hsync, hc8b]
      have hlead : ¬(byteAt data 4 &&& 192 = 128 ∨ 254 ≤ byteAt data 4) := by
        rintro (h | h)
        · exact hc7 ((and192_div (byteAt data 4) hb4).mp h)
        · exact hc8 h
      rw [if_neg hlead]
      have h254 : byteAt data 4 < 254 := by omega
      have hshape : ¬(byteAt data 4 &&& 192 = 128) := fun h =>
        hc7 ((and192_div (byteAt data 4) hb4).mp h)
      simp only []
      rw [varLoopF_40 data (byteAt data 4) hlen' h254 hshape]
      have hcnt5 : contCnt (byteAt data 4) ≤ 5 := contCnt_le5 (byteAt data 4) h254
      by_cases hvar : ∀ i, i < contCnt (byteAt data 4) → byteAt data (5 + i) / 64 = 2
      case neg =>
        rw [if_neg hvar]
        simp [specHeaderOK, eq_true hsync, eq_false hvar]
      case pos =>
        rw [if_pos hvar]
        rw [show (40:Nat) + 8 * contCnt (byteAt data 4) =
          8 * (5 + contCnt (byteAt data 4)) by ring]
        simp only []
        rw [parseBlockSize_rd data (byteAt data 2 / 16) (5 + contCnt (byteAt data 4))
          (by omega)]
        have hsr15 : byteAt data 2 % 16 < 15 := by
          have : byteAt data 2 % 16 < 16 := Nat.mod_lt _ (by norm_num)
          omega
        have hbsle : (if byteAt data 2 / 16 = 6 then 1
            else if byteAt data 2 / 16 = 7 then 2 else 0) ≤ 2 := by
          split
          · omega
          · split <;> omega
        rw [parseSampleRate_rd data ctxSr (byteAt data 2 % 16)
          (5 + contCnt (byteAt data 4) +
            (if byteAt data 2 / 16 = 6 then 1
             else if byteAt data 2 / 16 = 7 then 2 else 0)) hsr15 (by omega)]
        have hsrle : (if byteAt data 2 % 16 = 12 then 1
            else if byteAt data 2 % 16 = 13 ∨ byteAt data 2 % 16 = 14 then 2
            else 0) ≤ 2 := by
          split
          · omega
          · split <;> omega
        rw [parseTail_isSome data _ _ _
          (5 + contCnt (byteAt data 4) +
            (if byteAt data 2 / 16 = 6 then 1
             else if byteAt data 2 / 16 = 7 then 2 else 0) +
            (if byteAt data 2 % 16 = 12 then 1
             else if byteAt data 2 % 16 = 13 ∨ byteAt data 2 % 16 = 14 then 2
             else 0)) (by omega) hlen']
        have hc8t : byteAt data 4 < 254 := h254
        simp [specHeaderOK, eq_true hsync, hbs, hsr,
          show byteAt data 3 / 16 ≤ 10 by omega, hbps,
          show byteAt data 3 % 2 = 0 by omega, hc7, hc8t, eq_true hvar, hlen']

end FlacDmx
